import Mathlib

/-!
# cloudmc_usage_delta / cloudmc_usage_trends

A shallow embedding of the two Go programs of the repository
(`cloudmc_usage_delta.go` and `cloudmc_usage_trends.go`) and proofs about the
alerting pipeline they implement: the per-connection delta computation, the
threshold test, the deferred service-connection lookup, the rendering of the
alert line and the choice of sink.

Modelling conventions.

* A `float64` is a finite binary64 number, held as the rational it denotes, an
  infinity or a NaN.  Every arithmetic operation rounds its exact result to
  binary64 (IEEE-754 round to nearest, ties to even, gradual underflow,
  overflow to an infinity); a division by zero yields an infinity or a NaN,
  and every ordered comparison with a NaN is false.  The sign of a zero is not
  tracked: both programs only use a quotient under `math.Abs`.
* A `TotalUsage.Value` decoded from the Elasticsearch JSON body is a finite
  binary64 number.
* A run of `main` is a list of externally visible events together with the way
  the run ended (`done`, `log.Fatal`, or a runtime panic).
* The collaborators (viper configuration, the CloudMC client, the Elasticsearch
  client, the title caser) are inputs of the run.
-/

namespace CloudMC

/-! ## float64 -/

/-- A `float64` result: a finite value, one of the two infinities, or a NaN. -/
inductive F64 where
  | fin (q : ℚ)
  | posInf
  | negInf
  | nan
  deriving DecidableEq

namespace F64

/-- Sign change. -/
def neg : F64 → F64
  | fin q => fin (-q)
  | posInf => negInf
  | negInf => posInf
  | nan => nan

/-- The number of binary digits of `n`, with `fuel` at least that number. -/
def bits : ℕ → ℕ → ℕ
  | 0, _ => 0
  | fuel + 1, n => if n = 0 then 0 else bits fuel (n / 2) + 1

/-- The number of binary digits of `n`. -/
def bitLen (n : ℕ) : ℕ := bits n n

/-- The exponent `e` with `2 ^ e ≤ a < 2 ^ (e + 1)`, for a positive `a`. -/
def ilog2 (a : ℚ) : ℤ :=
  let k : ℤ := (bitLen a.num.natAbs : ℤ) - (bitLen a.den : ℤ)
  if (2 : ℚ) ^ k ≤ a then k else k - 1

/-- The binary64 exponent of a positive value: never below that of the
subnormal numbers. -/
def expo (a : ℚ) : ℤ := max (ilog2 a) (-1022)

/-- The spacing of the binary64 numbers around a positive value: 52 fraction
bits below the exponent. -/
def ulp (a : ℚ) : ℚ := (2 : ℚ) ^ (expo a - 52)

/-- The nearest integer, ties to even. -/
def rne (x : ℚ) : ℤ :=
  let f := ⌊x⌋
  if x - f < 1 / 2 then f
  else if 1 / 2 < x - f then f + 1
  else if f % 2 = 0 then f else f + 1

/-- Rounding of a non-negative real to binary64, to nearest with ties to
even; a result of `2 ^ 1024` or more overflows to `+Inf`. -/
def roundPos (a : ℚ) : F64 :=
  let r := (rne (a / ulp a) : ℚ) * ulp a
  if (2 : ℚ) ^ (1024 : ℕ) ≤ r then posInf else fin r

/-- Rounding of a real to binary64 (IEEE-754 round to nearest, ties to even). -/
def round (x : ℚ) : F64 :=
  if x < 0 then neg (roundPos (-x)) else roundPos x

/-- The order of `float64`: `x <= y`, false as soon as one side is a NaN. -/
def le : F64 → F64 → Bool
  | fin a, fin b => decide (a ≤ b)
  | negInf, fin _ => true
  | negInf, negInf => true
  | negInf, posInf => true
  | fin _, posInf => true
  | posInf, posInf => true
  | _, _ => false

/-- The comparison `x < y`; false as soon as one side is a NaN. -/
def lt : F64 → F64 → Bool
  | fin a, fin b => decide (a < b)
  | negInf, fin _ => true
  | negInf, posInf => true
  | fin _, posInf => true
  | _, _ => false

/-- The comparison `x > y`; false as soon as one side is a NaN. -/
def gt (x y : F64) : Bool := lt y x

/-- The comparison `x >= y`; false as soon as one side is a NaN. -/
def ge (x y : F64) : Bool := le y x

/-- Go `math.Abs`. -/
def abs : F64 → F64
  | fin q => fin |q|
  | posInf => posInf
  | negInf => posInf
  | nan => nan

/-- The difference `x - y` of two finite values. -/
def sub (x y : ℚ) : F64 := round (x - y)

/-- The quotient `x / y` by a finite value.  A zero divisor gives NaN for
`0 / 0` and an infinity otherwise. -/
def div (x : F64) (y : ℚ) : F64 :=
  match x with
  | fin a =>
    if y = 0 then
      if a = 0 then nan else if 0 < a then posInf else negInf
    else round (a / y)
  | posInf => if 0 ≤ y then posInf else negInf
  | negInf => if 0 ≤ y then negInf else posInf
  | nan => nan

/-- The product `x * c` with a finite constant `c`. -/
def scale (x : F64) (c : ℚ) : F64 :=
  match x with
  | fin q => round (q * c)
  | posInf => if c = 0 then nan else if 0 < c then posInf else negInf
  | negInf => if c = 0 then nan else if 0 < c then negInf else posInf
  | nan => nan

end F64

/-- A finite `float64` value: a rational that rounding to binary64 leaves as
it is. -/
structure Float64 where
  val : ℚ
  finite : F64.round val = F64.fin val

/-! ## Formatting -/

/-- Nearest integer to `n / d`, ties to even (`d` positive). -/
def roundHalfEven (n d : Nat) : Nat :=
  let f := n / d
  let r := n % d
  if 2 * r < d then f else if d < 2 * r then f + 1 else if f % 2 = 0 then f else f + 1

/-- Decimal digits of `x`, left-padded with zeros to at least `width` characters. -/
def zeroPad (width : Nat) (x : Nat) : List Char :=
  let ds := (toString x).toList
  List.replicate (width - ds.length) '0' ++ ds

/-- The digits of a finite value printed with `prec` decimals: whether a minus
sign is printed, the digits of the integer part, the digits of the fraction. -/
def fixedParts (prec : Nat) (q : ℚ) : Bool × List Char × List Char :=
  let r := roundHalfEven (q.num.natAbs * 10 ^ prec) q.den
  (decide (q.num < 0), (toString (r / 10 ^ prec)).toList, zeroPad prec (r % 10 ^ prec))

/-- The verb `%.<prec>f` of Go `fmt` on a finite value (`prec` at least 1). -/
def fmtFixed (prec : Nat) (q : ℚ) : String :=
  let p := fixedParts prec q
  String.mk ((if p.1 then ['-'] else []) ++ p.2.1 ++ '.' :: p.2.2)

/-- The verb `%.<prec>f` of Go `fmt` on a `float64`. -/
def fmtFloat (prec : Nat) : F64 → String
  | F64.fin q => fmtFixed prec q
  | F64.posInf => "+Inf"
  | F64.negInf => "-Inf"
  | F64.nan => "NaN"

/-- Insert the grouping separator `,` every three digits, counted from the right. -/
def groupThousands (ds : List Char) : List Char :=
  let rec go : List Char → Nat → List Char
    | [], _ => []
    | c :: cs, k =>
      if k % 3 = 0 ∧ k ≠ 0 ∧ cs.length + 1 ≠ ds.length then ',' :: c :: go cs (k - 1)
      else c :: go cs (k - 1)
  go ds ds.length

/-- The call `cp.Sprintf("%.2f", v)` on the English `message.Printer`: two
decimals, integer digits grouped by thousands. -/
def cpSprintf2 (v : ℚ) : String :=
  let p := fixedParts 2 v
  String.mk ((if p.1 then ['-'] else []) ++ groupThousands p.2.1 ++ '.' :: p.2.2)

/-- An operand of `fmt.Sprintf`. -/
inductive Arg where
  | str (s : String)
  | float (x : F64)

/-- Where the scan of a format string stands: in plain text, after a `%`,
after `%.`, or after `%.N`. -/
inductive Scan where
  | text
  | percent
  | dot
  | digits (d : Char)

/-- Go `fmt.Sprintf` restricted to what the two programs use: the verbs `%s`
on a string, `%.Nf` (one digit `N`) on a `float64`, and the literal `%%`.
A verb outside this set, or one without a fitting operand, prints nothing. -/
def SprintfFrom : Scan → List Char → List Arg → List Char
  | _, [], _ => []
  | Scan.text, c :: rest, args =>
    if c = '%' then SprintfFrom Scan.percent rest args
    else c :: SprintfFrom Scan.text rest args
  | Scan.percent, c :: rest, args =>
    if c = '%' then '%' :: SprintfFrom Scan.text rest args
    else if c = '.' then SprintfFrom Scan.dot rest args
    else if c = 's' then
      match args with
      | Arg.str s :: args' => s.toList ++ SprintfFrom Scan.text rest args'
      | _ => SprintfFrom Scan.text rest args
    else SprintfFrom Scan.text rest args
  | Scan.dot, c :: rest, args => SprintfFrom (Scan.digits c) rest args
  | Scan.digits d, c :: rest, args =>
    if c = 'f' then
      match args with
      | Arg.float x :: args' => (fmtFloat (d.toNat - 48) x).toList ++ SprintfFrom Scan.text rest args'
      | _ => SprintfFrom Scan.text rest args
    else SprintfFrom Scan.text rest args

/-- The call `fmt.Sprintf(format, args...)`. -/
def Sprintf (format : String) (args : List Arg) : String :=
  String.mk (SprintfFrom Scan.text format.toList args)

/-! ## Dates -/

/-- A calendar date, as held by a Go `time.Time` at midnight UTC. -/
structure Date where
  year : Nat
  month : Nat
  day : Nat
  deriving DecidableEq

/-- The zero `time.Time`, January 1 of year 1. -/
def Date.zero : Date := ⟨1, 1, 1⟩

/-- Go `time.isLeap`. -/
def isLeap (year : Nat) : Bool :=
  year % 4 == 0 && (year % 100 != 0 || year % 400 == 0)

/-- Go `time.daysIn`. -/
def daysIn (month year : Nat) : Nat :=
  if month = 2 then (if isLeap year then 29 else 28)
  else if month = 4 ∨ month = 6 ∨ month = 9 ∨ month = 11 then 30
  else 31

/-- The value of a decimal digit. -/
def digitVal (c : Char) : Option Nat :=
  if c.isDigit then some (c.toNat - 48) else none

/-- The call `time.Parse("20060102", value)`: four digits of year, two of
month, two of day and nothing else; the month and the day of the month are
range-checked.  `none` stands for a returned error. -/
def timeParse (value : List Char) : Option Date :=
  match value with
  | [y1, y2, y3, y4, m1, m2, d1, d2] => do
    let a ← digitVal y1
    let b ← digitVal y2
    let c ← digitVal y3
    let d ← digitVal y4
    let year := 1000 * a + 100 * b + 10 * c + d
    let e ← digitVal m1
    let f ← digitVal m2
    let month := 10 * e + f
    if month < 1 ∨ 12 < month then none
    else do
      let g ← digitVal d1
      let h ← digitVal d2
      let day := 10 * g + h
      if day < 1 ∨ daysIn month year < day then none
      else some ⟨year, month, day⟩
  | _ => none

/-- The call `t.Format("2006-01-02")`. -/
def Date.Format (t : Date) : String :=
  String.mk (zeroPad 4 t.year ++ '-' :: zeroPad 2 t.month ++ '-' :: zeroPad 2 t.day)

/-! ## The aggregation result (`QueryResult`) -/

/-- An element of `Daily.Buckets`. -/
structure DailyBucket where
  KeyAsString : String
  Key : Int
  DocCount : Int
  /-- The field `TotalUsage.Value`. -/
  TotalUsage : Float64

/-- An element of `Connection.Buckets`. -/
structure ConnectionBucket where
  Key : String
  DocCount : Int
  /-- The field `Daily.Buckets`. -/
  Daily : List DailyBucket

/-- An element of `Aggregations.Organization.Buckets`. -/
structure OrganizationBucket where
  Key : String
  DocCount : Int
  /-- The field `Connection.Buckets`. -/
  Connection : List ConnectionBucket

/-- The decoded search response; only `Aggregations.Organization.Buckets` is read. -/
structure QueryResult where
  Buckets : List OrganizationBucket

/-! ## Collaborators -/

/-- The viper configuration after `ReadInConfig` and `SetDefault`: the string
value of each key that is set, and what `viper.GetFloat64("THRESHOLD")` returns. -/
structure Config where
  value : String → Option String
  THRESHOLD : F64

/-- The call `viper.IsSet(key)`. -/
def Config.IsSet (cfg : Config) (key : String) : Bool := (cfg.value key).isSome

/-- The call `viper.GetString(key)`. -/
def Config.GetString (cfg : Config) (key : String) : String := (cfg.value key).getD ""

/-- A `cmc_core` organization; both fields are pointers. -/
structure Organization where
  Id : Option String
  Name : Option String

/-- The data of a `cmc_core` service connection; both fields are pointers. -/
structure ServiceConnection where
  Name : Option String
  /-- The field `Type`. -/
  Type_ : Option String

/-- What `es_client.Search` followed by the JSON decoding gives for one query. -/
inductive SearchOutcome where
  | searchError
  | decodeError
  | ok (result : QueryResult)

/-- The services a run talks to.  `none` stands for a returned error. -/
structure World where
  /-- Whether `elasticsearch.NewClient` succeeds. -/
  newClient : Bool
  getOrganizations : Option (List Organization)
  /-- The search for one organization id (the date range is fixed for a run). -/
  search : String → SearchOutcome
  getServiceConnection : String → Option ServiceConnection
  /-- The title caser `cases.Title(language.English).String`. -/
  title : String → String

/-! ## Runs -/

/-- An externally visible action of a run. -/
inductive Event where
  | getOrganizations
  | search (orgId : String)
  | getServiceConnection (sc : String)
  | logPrintln (output : String)
  | postMessage (channel output : String)
  deriving DecidableEq

/-- How a run, or a part of it, ended. -/
inductive Status where
  | done
  | fatal (msg : String)
  | panic (msg : String)
  deriving DecidableEq

/-- The events of a run, in order, and how it ended. -/
structure Run where
  events : List Event
  status : Status
  deriving DecidableEq

/-- Sequencing: `next` runs only when `r` ended normally. -/
def Run.seq (r next : Run) : Run :=
  match r.status with
  | Status.done => ⟨r.events ++ next.events, next.status⟩
  | _ => r

/-- A `for ... range` loop whose body may end the run. -/
def forEach {α : Type} (xs : List α) (body : α → Run) : Run :=
  match xs with
  | [] => ⟨[], Status.done⟩
  | x :: rest => (body x).seq (forEach rest body)

/-- An alert handed to a sink. -/
def Event.isAlert : Event → Bool
  | Event.logPrintln _ => true
  | Event.postMessage _ _ => true
  | _ => false

/-- The key a lookup event asks for. -/
def Event.lookupKey : Event → Option String
  | Event.getServiceConnection sc => some sc
  | _ => none

/-- The text of an alert event. -/
def Event.alertText : Event → Option String
  | Event.logPrintln output => some output
  | Event.postMessage _ output => some output
  | _ => none

/-! ## The alert line (identical in both programs) -/

/-- The expression `time.Parse("20060102", keyAsString[:8])` with the error
dropped.  The slice panics on fewer than 8 bytes.  Eight bytes that are all
decimal digits are the first eight characters, and anything else fails to
parse, so the parser may read the first eight characters. -/
def parseDay (keyAsString : String) : Except String Date :=
  if keyAsString.utf8ByteSize < 8 then Except.error "slice bounds out of range"
  else Except.ok ((timeParse (keyAsString.toList.take 8)).getD Date.zero)

/-- A pointer dereference `*p`. -/
def deref (p : Option String) : Except String String :=
  match p with
  | none => Except.error "nil pointer dereference"
  | some s => Except.ok s

/-- The format string of the alert line. -/
def alertFormat : String :=
  "Daily usage %s by %.1f%% for '%s' in %s (%s) between %s and %s, from $%s to $%s"

/-- The statements from `dayOne, _ := time.Parse(...)` to
`output := fmt.Sprintf(...)`, given `dif` and the value of `delta`
(cloudmc_usage_delta.go lines 269-281, cloudmc_usage_trends.go lines 287-299). -/
def alertOutput (w : World) (org : Organization) (scData : ServiceConnection)
    (b0 b1 : DailyBucket) (dif : F64) (delta : F64) : Except String String :=
  match parseDay b0.KeyAsString with
  | Except.error e => Except.error e
  | Except.ok dayOne =>
    match parseDay b1.KeyAsString with
    | Except.error e => Except.error e
    | Except.ok dayTwo =>
      let verb := if F64.lt dif (F64.fin 0) then "decreased" else "increased"
      match deref org.Name with
      | Except.error e => Except.error e
      | Except.ok orgName =>
        match deref scData.Type_ with
        | Except.error e => Except.error e
        | Except.ok scType =>
          match deref scData.Name with
          | Except.error e => Except.error e
          | Except.ok scName =>
            Except.ok (Sprintf alertFormat
              [Arg.str verb, Arg.float delta, Arg.str orgName, Arg.str (w.title scType),
               Arg.str scName, Arg.str dayOne.Format, Arg.str dayTwo.Format,
               Arg.str (cpSprintf2 b0.TotalUsage.val),
               Arg.str (cpSprintf2 b1.TotalUsage.val)])

/-- The four checks of the required settings, shared by both programs. -/
def missingRequired (cfg : Config) : Bool :=
  (!cfg.IsSet "CMC_ENDPOINT" || cfg.GetString "CMC_ENDPOINT" == "") ||
  (!cfg.IsSet "CMC_KEY" || cfg.GetString "CMC_KEY" == "") ||
  (!cfg.IsSet "ELASTIC_CLOUDID" || cfg.GetString "ELASTIC_CLOUDID" == "") ||
  (!cfg.IsSet "ELASTIC_KEY" || cfg.GetString "ELASTIC_KEY" == "")

/-- The message of the `log.Fatal` that ends a run with incomplete settings. -/
def missingConfigMessage : String :=
  "Missing required configuration details, please update the config file."

/-! ## cloudmc_usage_delta.go -/

namespace Delta

/-- The threshold test of line 262 on the values of daily buckets 0 and 1. -/
def passes (v0 v1 : Float64) (threshold : F64) : Bool :=
  let dif := F64.sub v1.val v0.val
  F64.gt (F64.abs (F64.div dif v0.val)) threshold

/-- The percentage `delta` of line 276. -/
def delta (v0 v1 : Float64) : F64 :=
  let dif := F64.sub v1.val v0.val
  F64.scale (F64.abs (F64.div dif v0.val)) 100

/-- The body of the loop over `orgAgg.Connection.Buckets` (lines 260-284). -/
def processConnection (cfg : Config) (w : World) (org : Organization)
    (scAgg : ConnectionBucket) : Run :=
  if scAgg.Daily.length > 1 then
    match scAgg.Daily[1]?, scAgg.Daily[0]? with
    | some b1, some b0 =>
      let dif := F64.sub b1.TotalUsage.val b0.TotalUsage.val
      if passes b0.TotalUsage b1.TotalUsage cfg.THRESHOLD then
        match w.getServiceConnection scAgg.Key with
        | none =>
          ⟨[Event.getServiceConnection scAgg.Key], Status.fatal "Error getting service connection: "⟩
        | some scData =>
          match alertOutput w org scData b0 b1 dif (delta b0.TotalUsage b1.TotalUsage) with
          | Except.error e => ⟨[Event.getServiceConnection scAgg.Key], Status.panic e⟩
          | Except.ok output =>
            ⟨[Event.getServiceConnection scAgg.Key, Event.logPrintln output], Status.done⟩
      else ⟨[], Status.done⟩
    | _, _ => ⟨[], Status.panic "index out of range"⟩
  else ⟨[], Status.done⟩

/-- The loops over the organization and connection buckets of one result
(lines 258-287). -/
def processResult (cfg : Config) (w : World) (org : Organization) (result : QueryResult) : Run :=
  forEach result.Buckets fun orgAgg =>
    forEach orgAgg.Connection fun scAgg => processConnection cfg w org scAgg

/-- The body of the loop over the organizations (lines 226-288). -/
def processOrganization (cfg : Config) (w : World) (org : Organization) : Run :=
  match org.Id with
  | none => ⟨[], Status.panic "nil pointer dereference"⟩
  | some orgId =>
    match w.search orgId with
    | SearchOutcome.searchError =>
      ⟨[Event.search orgId], Status.fatal "Error executing the elastic search: "⟩
    | SearchOutcome.decodeError =>
      ⟨[Event.search orgId], Status.fatal "Error decoding query results: "⟩
    | SearchOutcome.ok result =>
      Run.seq ⟨[Event.search orgId], Status.done⟩ (processResult cfg w org result)

/-- The function `main` of cloudmc_usage_delta.go, from the validation of the
settings on.  A failed `getOrganizations` is only logged, and the loop then
ranges over the empty `GetData()` of a nil response. -/
def main (cfg : Config) (w : World) : Run :=
  if missingRequired cfg then ⟨[], Status.fatal missingConfigMessage⟩
  else if !w.newClient then ⟨[], Status.fatal "Error setting up Elastic client: "⟩
  else
    Run.seq ⟨[Event.getOrganizations], Status.done⟩
      (forEach (w.getOrganizations.getD []) fun org => processOrganization cfg w org)

end Delta

/-! ## cloudmc_usage_trends.go -/

namespace Trends

/-- The variable `denominator` of lines 276-279. -/
def denominator (v0 v1 : Float64) : Float64 :=
  let dif := F64.sub v1.val v0.val
  if F64.lt dif (F64.fin 0) then v1 else v0

/-- The threshold test of line 280 on the values of daily buckets 0 and 1. -/
def passes (v0 v1 : Float64) (threshold : F64) : Bool :=
  let dif := F64.sub v1.val v0.val
  F64.gt (F64.abs (F64.div dif (denominator v0 v1).val)) threshold

/-- The percentage `delta` of line 294. -/
def delta (v0 v1 : Float64) : F64 :=
  let dif := F64.sub v1.val v0.val
  F64.scale (F64.abs (F64.div dif (denominator v0 v1).val)) 100

/-- The check of lines 179-183: one of the two Slack settings without the other. -/
def slackIncomplete (cfg : Config) : Bool :=
  ((!cfg.IsSet "SLACK_TOKEN" || cfg.GetString "SLACK_TOKEN" == "") &&
      cfg.IsSet "SLACK_CHANNEL" && cfg.GetString "SLACK_CHANNEL" != "") ||
  ((!cfg.IsSet "SLACK_CHANNEL" || cfg.GetString "SLACK_CHANNEL" == "") &&
      cfg.IsSet "SLACK_TOKEN" && cfg.GetString "SLACK_TOKEN" != "")

/-- Whether `slackAPI` is set (lines 199-202): `slack.New` never returns nil. -/
def slackAPI (cfg : Config) : Bool :=
  cfg.IsSet "SLACK_TOKEN" && cfg.GetString "SLACK_TOKEN" != "" &&
    cfg.IsSet "SLACK_CHANNEL" && cfg.GetString "SLACK_CHANNEL" != ""

/-- The sink of lines 301-306; the result of `PostMessage` is dropped. -/
def deliver (cfg : Config) (output : String) : Event :=
  if slackAPI cfg then Event.postMessage (cfg.GetString "SLACK_CHANNEL") output
  else Event.logPrintln output

/-- The body of the loop over `orgAgg.Connection.Buckets` (lines 274-308). -/
def processConnection (cfg : Config) (w : World) (org : Organization)
    (scAgg : ConnectionBucket) : Run :=
  if scAgg.Daily.length > 1 then
    match scAgg.Daily[1]?, scAgg.Daily[0]? with
    | some b1, some b0 =>
      let dif := F64.sub b1.TotalUsage.val b0.TotalUsage.val
      if passes b0.TotalUsage b1.TotalUsage cfg.THRESHOLD then
        match w.getServiceConnection scAgg.Key with
        | none =>
          ⟨[Event.getServiceConnection scAgg.Key], Status.fatal "Error getting service connection: "⟩
        | some scData =>
          match alertOutput w org scData b0 b1 dif (delta b0.TotalUsage b1.TotalUsage) with
          | Except.error e => ⟨[Event.getServiceConnection scAgg.Key], Status.panic e⟩
          | Except.ok output =>
            ⟨[Event.getServiceConnection scAgg.Key, deliver cfg output], Status.done⟩
      else ⟨[], Status.done⟩
    | _, _ => ⟨[], Status.panic "index out of range"⟩
  else ⟨[], Status.done⟩

/-- The loops over the organization and connection buckets of one result
(lines 272-310). -/
def processResult (cfg : Config) (w : World) (org : Organization) (result : QueryResult) : Run :=
  forEach result.Buckets fun orgAgg =>
    forEach orgAgg.Connection fun scAgg => processConnection cfg w org scAgg

/-- The body of the loop over the organizations (lines 242-311). -/
def processOrganization (cfg : Config) (w : World) (org : Organization) : Run :=
  match org.Id with
  | none => ⟨[], Status.panic "nil pointer dereference"⟩
  | some orgId =>
    match w.search orgId with
    | SearchOutcome.searchError =>
      ⟨[Event.search orgId], Status.fatal "Error executing the elastic search: "⟩
    | SearchOutcome.decodeError =>
      ⟨[Event.search orgId], Status.fatal "Error decoding query results: "⟩
    | SearchOutcome.ok result =>
      Run.seq ⟨[Event.search orgId], Status.done⟩ (processResult cfg w org result)

/-- The function `main` of cloudmc_usage_trends.go, from the validation of the
settings on. -/
def main (cfg : Config) (w : World) : Run :=
  if missingRequired cfg || slackIncomplete cfg then ⟨[], Status.fatal missingConfigMessage⟩
  else if !w.newClient then ⟨[], Status.fatal "Error setting up Elastic client: "⟩
  else
    match w.getOrganizations with
    | none => ⟨[Event.getOrganizations], Status.fatal "Error getting organizations: "⟩
    | some orgs =>
      Run.seq ⟨[Event.getOrganizations], Status.done⟩
        (forEach orgs fun org => processOrganization cfg w org)

end Trends

/-! ## A common form of the two connection loops -/

/-- The body of the connection loop with the threshold test, the percentage
and the sink left open; both programs are instances of it. -/
def connectionRun (test : Float64 → Float64 → F64 → Bool)
    (pct : Float64 → Float64 → F64) (sink : String → Event)
    (cfg : Config) (w : World) (org : Organization) (scAgg : ConnectionBucket) : Run :=
  if scAgg.Daily.length > 1 then
    match scAgg.Daily[1]?, scAgg.Daily[0]? with
    | some b1, some b0 =>
      if test b0.TotalUsage b1.TotalUsage cfg.THRESHOLD then
        match w.getServiceConnection scAgg.Key with
        | none =>
          ⟨[Event.getServiceConnection scAgg.Key], Status.fatal "Error getting service connection: "⟩
        | some scData =>
          match alertOutput w org scData b0 b1 (F64.sub b1.TotalUsage.val b0.TotalUsage.val)
              (pct b0.TotalUsage b1.TotalUsage) with
          | Except.error e => ⟨[Event.getServiceConnection scAgg.Key], Status.panic e⟩
          | Except.ok output =>
            ⟨[Event.getServiceConnection scAgg.Key, sink output], Status.done⟩
      else ⟨[], Status.done⟩
    | _, _ => ⟨[], Status.panic "index out of range"⟩
  else ⟨[], Status.done⟩

/-- The decision of the threshold gate on a connection: it has at least two
daily buckets and the test on the first two values succeeds. -/
def gateOf (test : Float64 → Float64 → F64 → Bool) (cfg : Config) (scAgg : ConnectionBucket) : Bool :=
  match scAgg.Daily with
  | b0 :: b1 :: _ => test b0.TotalUsage b1.TotalUsage cfg.THRESHOLD
  | _ => false

/-- The connection buckets of a result, in the order the loops visit them. -/
def connections (result : QueryResult) : List ConnectionBucket :=
  result.Buckets.flatMap fun orgAgg => orgAgg.Connection

/-- The two loops over the buckets of a result, with the body of the
connection loop left open. -/
def resultRun (body : ConnectionBucket → Run) (result : QueryResult) : Run :=
  forEach result.Buckets fun orgAgg => forEach orgAgg.Connection body

/-- The keys of the lookups of a run, in order. -/
def Run.lookups (r : Run) : List String := r.events.filterMap Event.lookupKey

/-- The texts of the alerts of a run, in order. -/
def Run.alerts (r : Run) : List String := r.events.filterMap Event.alertText

/-! ## The alert line as the specification words it -/

/-- The alert line of the specification: `Daily usage <verb> by <magnitude>%
for '<org name>' in <type> (<connection name>) between <day-one> and
<day-two>, from $<day-one value> to $<day-two value>`, every part already
rendered. -/
def specAlertLine (verb magnitude orgName scType scName dayOne dayTwo v0 v1 : String) : String :=
  "Daily usage " ++ verb ++ " by " ++ magnitude ++ "% for '" ++ orgName ++ "' in " ++ scType ++
    " (" ++ scName ++ ") between " ++ dayOne ++ " and " ++ dayTwo ++ ", from $" ++ v0 ++
    " to $" ++ v1

/-- The direction word of the specification: an increase when the difference is
not negative. -/
def specVerb (diff : ℚ) : String := if 0 ≤ diff then "increased" else "decreased"

/-- The denominator of the directional-baseline policy of the specification:
`value[0]` when `diff >= 0`, otherwise `value[1]`. -/
def specDirectionalDenominator (v0 v1 : ℚ) : ℚ := if 0 ≤ v1 - v0 then v0 else v1

/-- The magnitude of the specification, `|diff / denominator| * 100`, computed
in `float64` arithmetic. -/
def specMagnitude (v0 v1 denominator : ℚ) : F64 :=
  F64.scale (F64.abs (F64.div (F64.sub v1 v0) denominator)) 100

/-- A setting that is set to a non-empty value. -/
def Config.nonEmpty (cfg : Config) (key : String) : Bool :=
  match cfg.value key with
  | some s => s != ""
  | none => false

/-! ## Concrete scenarios -/

/-- A title caser for words of ASCII letters: the first letter of a word in
upper case, the others in lower case.  It stands for the library caser in the
concrete scenarios only. -/
def capitalizeWords (s : String) : String :=
  let rec go : List Char → Bool → List Char
    | [], _ => []
    | c :: cs, mid =>
      if c.isAlpha then (if mid then c.toLower else c.toUpper) :: go cs true
      else c :: go cs false
  String.mk (go s.toList false)

/-- The organization of the scenarios. -/
def acme : Organization := ⟨some "org-1", some "Acme"⟩

/-- The service connection of the scenarios. -/
def acmeAws : ServiceConnection := ⟨some "Acme AWS", some "aws"⟩

/-- A daily bucket with the given `key_as_string` and total. -/
def dailyBucket (keyAsString : String) (value : Float64) : DailyBucket := ⟨keyAsString, 0, 1, value⟩

/-- The connection `conn-1` with the given daily buckets. -/
def conn1 (daily : List DailyBucket) : ConnectionBucket := ⟨"conn-1", 2, daily⟩

/-- The connection `conn-1` with two daily buckets, January 14 and 15 of 2024. -/
def conn1Days (v0 v1 : Float64) : ConnectionBucket :=
  conn1 [dailyBucket "20240114T000000.000Z" v0, dailyBucket "20240115T000000.000Z" v1]

/-- A result with one organization bucket holding the given connections. -/
def resultOf (scs : List ConnectionBucket) : QueryResult := ⟨[⟨"org-1", 2, scs⟩]⟩

/-- A world with one organization, in which every search returns `result` and
every lookup returns `sc`. -/
def worldOf (sc : Option ServiceConnection) (result : QueryResult) : World :=
  ⟨true, some [acme], fun _ => SearchOutcome.ok result, fun _ => sc, capitalizeWords⟩

/-- A configuration with the four required settings, the given Slack settings
and the given threshold. -/
def configOf (slackToken slackChannel : Option String) (threshold : F64) : Config :=
  ⟨fun key =>
      if key = "SLACK_TOKEN" then slackToken
      else if key = "SLACK_CHANNEL" then slackChannel
      else if key = "CMC_ENDPOINT" ∨ key = "CMC_KEY" ∨ key = "ELASTIC_CLOUDID" ∨
          key = "ELASTIC_KEY" then some "x"
      else none,
    threshold⟩

/-- A configuration without Slack settings. -/
def plainConfig (threshold : F64) : Config := configOf none none threshold


/-- The binary64 number of a rational that rounding leaves as it is. -/
def dbl (q : ℚ) (h : F64.round q = F64.fin q) : Float64 := ⟨q, h⟩

/-- The binary64 number 0. -/
def d0 : Float64 := dbl 0 (by decide!)

/-- The binary64 number 5. -/
def d5 : Float64 := dbl 5 (by decide!)

/-- The binary64 number 7. -/
def d7 : Float64 := dbl 7 (by decide!)

/-- The binary64 number 3. -/
def d3 : Float64 := dbl 3 (by decide!)

/-- The binary64 number 8. -/
def d8 : Float64 := dbl 8 (by decide!)

/-- The binary64 number 50. -/
def d50 : Float64 := dbl 50 (by decide!)

/-- The binary64 number 80. -/
def d80 : Float64 := dbl 80 (by decide!)

/-- The binary64 number 100. -/
def d100 : Float64 := dbl 100 (by decide!)

/-- The binary64 number 103. -/
def d103 : Float64 := dbl 103 (by decide!)

/-- The binary64 number 120. -/
def d120 : Float64 := dbl 120 (by decide!)

/-- The binary64 number 200. -/
def d200 : Float64 := dbl 200 (by decide!)

/-- The binary64 number 10000. -/
def d10000 : Float64 := dbl 10000 (by decide!)

/-- The binary64 number nearest to 61.40. -/
def d61_40 : Float64 := dbl (8641281785017139 / 140737488355328) (by decide!)

/-- The binary64 number nearest to 64.47. -/
def d64_47 : Float64 := dbl (2268336468566999 / 35184372088832) (by decide!)

/-- The binary64 number nearest to 1e-13. -/
def d1em13 : Float64 :=
  dbl (3961408125713217 / 39614081257132168796771975168) (by decide!)

/-- The binary64 number nearest to 847.5863032002954. -/
def d847hi : Float64 := dbl (7455447967299193 / 8796093022208) (by decide!)

/-- The binary64 number next below it, nearest to 847.5863032002953. -/
def d847lo : Float64 := dbl (931930995912399 / 1099511627776) (by decide!)

/-- The binary64 number `2 ^ 1000`. -/
def dHuge : Float64 := dbl ((2 : ℚ) ^ (1000 : ℕ)) (by decide!)

/-- The binary64 number `2 ^ (-100)`. -/
def dTiny : Float64 := dbl (1 / (2 : ℚ) ^ (100 : ℕ)) (by decide!)

/-- The threshold 0.05 as `viper.GetFloat64` returns it. -/
def threshold005 : F64 := F64.round (1 / 20)

/-- The threshold 0.25 as `viper.GetFloat64` returns it. -/
def threshold025 : F64 := F64.round (1 / 4)

/-! ## Lemmas -/

/-! ### Rounding -/

namespace F64

/-! ### Rounding to the nearest integer -/

theorem rne_sub_le (x : ℚ) : (rne x : ℚ) - 1 / 2 ≤ x := by
  unfold rne
  have h1 := Int.floor_le x
  have h2 := Int.lt_floor_add_one x
  simp only
  split_ifs with ha hb hc
  · linarith
  · push_cast
    linarith
  · linarith
  · push_cast
    have : x - ⌊x⌋ = 1 / 2 := le_antisymm (not_lt.mp hb) (not_lt.mp ha)
    linarith

theorem le_rne_add (x : ℚ) : x ≤ (rne x : ℚ) + 1 / 2 := by
  unfold rne
  have h1 := Int.floor_le x
  have h2 := Int.lt_floor_add_one x
  simp only
  split_ifs with ha hb hc
  · linarith
  · push_cast
    linarith
  · have : x - ⌊x⌋ = 1 / 2 := le_antisymm (not_lt.mp hb) (not_lt.mp ha)
    linarith
  · push_cast
    linarith

theorem rne_mono (x y : ℚ) (h : x ≤ y) : rne x ≤ rne y := by
  by_contra hlt
  have hlt' : rne y + 1 ≤ rne x := by omega
  have hq : (rne y : ℚ) + 1 ≤ rne x := by exact_mod_cast hlt'
  have a1 := rne_sub_le x
  have a2 := le_rne_add y
  have hxy : x = y := by linarith
  rw [hxy] at hlt
  exact hlt le_rfl

theorem rne_intCast (k : ℤ) : rne (k : ℚ) = k := by
  unfold rne
  simp

theorem rne_nonneg (x : ℚ) (h : 0 ≤ x) : 0 ≤ rne x := by
  have := rne_mono 0 x h
  have h0 : rne (0 : ℚ) = 0 := by
    have := rne_intCast 0
    simpa using this
  omega

/-! ### The exponent -/

theorem bits_spec (fuel n : ℕ) (h : n ≤ fuel) (hn : n ≠ 0) :
    2 ^ (bits fuel n - 1) ≤ n ∧ n < 2 ^ bits fuel n := by
  induction fuel generalizing n with
  | zero => omega
  | succ fuel ih =>
    unfold bits
    rw [if_neg hn]
    by_cases h2 : n / 2 = 0
    · have hn1 : n = 1 := by omega
      subst hn1
      cases fuel <;> simp [bits]
    · obtain ⟨i1, i2⟩ := ih (n / 2) (by omega) h2
      have hb : 1 ≤ bits fuel (n / 2) := by
        by_contra hb
        have : bits fuel (n / 2) = 0 := by omega
        rw [this] at i2
        simp at i2
        exact h2 i2
      constructor
      · have : bits fuel (n / 2) + 1 - 1 = (bits fuel (n / 2) - 1) + 1 := by omega
        rw [this, pow_succ]
        omega
      · rw [pow_succ]
        omega

theorem bitLen_spec (n : ℕ) (hn : n ≠ 0) : 2 ^ (bitLen n - 1) ≤ n ∧ n < 2 ^ bitLen n :=
  bits_spec n n le_rfl hn

theorem bitLen_pos (n : ℕ) (hn : n ≠ 0) : 1 ≤ bitLen n := by
  by_contra h
  have h0 : bitLen n = 0 := by omega
  have := (bitLen_spec n hn).2
  rw [h0] at this
  simp at this
  exact hn this

end F64
namespace F64

theorem ratio_bounds (n d N D : ℚ) (hd : 0 < d) (hD : 0 < D) (hn : 0 < n)
    (hnU : n < N) (hnL : N ≤ 2 * n) (hdU : d < D) (hdL : D ≤ 2 * d) :
    n / d < 2 * N / D ∧ N / (2 * D) ≤ n / d := by
  constructor
  · rw [div_lt_div_iff₀ hd hD]
    nlinarith
  · rw [div_le_div_iff₀ (by positivity) hd]
    nlinarith

theorem ilog2_spec (a : ℚ) (ha : 0 < a) :
    (2 : ℚ) ^ ilog2 a ≤ a ∧ a < (2 : ℚ) ^ (ilog2 a + 1) := by
  have hnum : 0 < a.num := Rat.num_pos.mpr ha
  have hn0 : a.num.natAbs ≠ 0 := by omega
  have hd0 : a.den ≠ 0 := a.den_nz
  obtain ⟨n1, n2⟩ := bitLen_spec a.num.natAbs hn0
  obtain ⟨d1, d2⟩ := bitLen_spec a.den hd0
  have hln := bitLen_pos a.num.natAbs hn0
  have hld := bitLen_pos a.den hd0
  have hnq : ((a.num.natAbs : ℕ) : ℚ) = (a.num : ℚ) := by
    have : ((a.num.natAbs : ℕ) : ℤ) = a.num := Int.natAbs_of_nonneg (le_of_lt hnum)
    rw [← Int.cast_natCast, this]
  have hdpos : (0 : ℚ) < a.den := by exact_mod_cast Nat.pos_of_ne_zero hd0
  have hadiv : a = (a.num.natAbs : ℚ) / (a.den : ℚ) := by
    rw [hnq]
    exact (Rat.num_div_den a).symm
  -- the four bounds, over ℚ
  have hnU : ((a.num.natAbs : ℕ) : ℚ) < (2 : ℚ) ^ bitLen a.num.natAbs := by exact_mod_cast n2
  have hnL : (2 : ℚ) ^ bitLen a.num.natAbs ≤ 2 * ((a.num.natAbs : ℕ) : ℚ) := by
    have : 2 ^ bitLen a.num.natAbs ≤ 2 * a.num.natAbs := by
      have e : bitLen a.num.natAbs = (bitLen a.num.natAbs - 1) + 1 := by omega
      rw [e, pow_succ]
      omega
    exact_mod_cast this
  have hdU : ((a.den : ℕ) : ℚ) < (2 : ℚ) ^ bitLen a.den := by exact_mod_cast d2
  have hdL : (2 : ℚ) ^ bitLen a.den ≤ 2 * ((a.den : ℕ) : ℚ) := by
    have : 2 ^ bitLen a.den ≤ 2 * a.den := by
      have e : bitLen a.den = (bitLen a.den - 1) + 1 := by omega
      rw [e, pow_succ]
      omega
    exact_mod_cast this
  have hNpos : (0 : ℚ) < (2 : ℚ) ^ bitLen a.num.natAbs := by positivity
  have hDpos : (0 : ℚ) < (2 : ℚ) ^ bitLen a.den := by positivity
  have hnpos : (0 : ℚ) < ((a.num.natAbs : ℕ) : ℚ) := by
    rw [hnq]
    exact_mod_cast hnum
  have hk : (2 : ℚ) ^ ((bitLen a.num.natAbs : ℤ) - (bitLen a.den : ℤ)) =
      (2 : ℚ) ^ bitLen a.num.natAbs / (2 : ℚ) ^ bitLen a.den := by
    rw [zpow_sub₀ (by norm_num), zpow_natCast, zpow_natCast]
  have hk1 : (2 : ℚ) ^ ((bitLen a.num.natAbs : ℤ) - (bitLen a.den : ℤ) + 1) =
      2 * (2 : ℚ) ^ bitLen a.num.natAbs / (2 : ℚ) ^ bitLen a.den := by
    rw [zpow_add₀ (by norm_num), hk, zpow_one]
    ring
  have hkm : (2 : ℚ) ^ ((bitLen a.num.natAbs : ℤ) - (bitLen a.den : ℤ) - 1) =
      (2 : ℚ) ^ bitLen a.num.natAbs / (2 * (2 : ℚ) ^ bitLen a.den) := by
    rw [zpow_sub₀ (by norm_num), hk, zpow_one]
    field_simp
    ring
  obtain ⟨hup', hlo'⟩ := ratio_bounds _ _ _ _ hdpos hDpos hnpos hnU hnL hdU hdL
  have hup : a < 2 * (2 : ℚ) ^ bitLen a.num.natAbs / (2 : ℚ) ^ bitLen a.den :=
    lt_of_eq_of_lt hadiv hup'
  have hlo : (2 : ℚ) ^ bitLen a.num.natAbs / (2 * (2 : ℚ) ^ bitLen a.den) ≤ a :=
    le_of_le_of_eq hlo' hadiv.symm
  unfold ilog2
  simp only
  split_ifs with hc
  · exact ⟨hc, by rw [hk1]; exact hup⟩
  · refine ⟨by rw [hkm]; exact hlo, ?_⟩
    rw [sub_add_cancel]
    exact not_le.mp hc

theorem expo_ge (a : ℚ) : -1022 ≤ expo a := le_max_right _ _

theorem lt_zpow_expo (a : ℚ) (ha : 0 < a) : a < (2 : ℚ) ^ (expo a + 1) := by
  have h := (ilog2_spec a ha).2
  have hle : ilog2 a + 1 ≤ expo a + 1 := by
    have := le_max_left (ilog2 a) (-1022)
    unfold expo
    omega
  exact lt_of_lt_of_le h (zpow_le_zpow_right₀ (by norm_num) hle)

theorem zpow_expo_le (a : ℚ) (ha : 0 < a) (he : -1022 < expo a) : (2 : ℚ) ^ expo a ≤ a := by
  have h := (ilog2_spec a ha).1
  have : expo a = ilog2 a := by
    unfold expo at he ⊢
    rcases max_cases (ilog2 a) (-1022) with ⟨h1, _⟩ | ⟨h1, _⟩
    · exact h1
    · omega
  rw [this]
  exact h

theorem expo_mono (a b : ℚ) (ha : 0 < a) (hab : a ≤ b) : expo a ≤ expo b := by
  have hb : 0 < b := lt_of_lt_of_le ha hab
  by_contra hlt
  have hlt' : expo b + 1 ≤ expo a := by omega
  have h1 := lt_zpow_expo b hb
  have h2 := zpow_expo_le a ha (by have := expo_ge b; omega)
  have h3 : (2 : ℚ) ^ (expo b + 1) ≤ (2 : ℚ) ^ expo a :=
    zpow_le_zpow_right₀ (by norm_num) hlt'
  linarith

end F64
namespace F64

/-! ### Rounding of a non-negative value -/

theorem ulp_pos (a : ℚ) : 0 < ulp a := by
  unfold ulp
  positivity

theorem roundPos_eq (a : ℚ) :
    roundPos a = if (2 : ℚ) ^ (1024 : ℕ) ≤ (rne (a / ulp a) : ℚ) * ulp a then posInf
      else fin ((rne (a / ulp a) : ℚ) * ulp a) := rfl

/-- The rounded value, before the overflow test. -/
theorem mantissa_nonneg (a : ℚ) (ha : 0 ≤ a) : 0 ≤ (rne (a / ulp a) : ℚ) * ulp a := by
  have h := rne_nonneg (a / ulp a) (div_nonneg ha (le_of_lt (ulp_pos a)))
  have : (0 : ℚ) ≤ (rne (a / ulp a) : ℚ) := by exact_mod_cast h
  exact mul_nonneg this (le_of_lt (ulp_pos a))

theorem mantissa_ge (a : ℚ) (ha : 0 < a) (he : -1022 < expo a) :
    (2 : ℚ) ^ expo a ≤ (rne (a / ulp a) : ℚ) * ulp a := by
  have h1 := zpow_expo_le a ha he
  have hu := ulp_pos a
  have hq : ((2 ^ 52 : ℤ) : ℚ) ≤ a / ulp a := by
    rw [le_div_iff₀ hu]
    unfold ulp
    have : (((2 ^ 52 : ℤ) : ℚ)) * (2 : ℚ) ^ (expo a - 52) = (2 : ℚ) ^ expo a := by
      rw [zpow_sub₀ (by norm_num)]
      norm_num
      ring
    rw [this]
    exact h1
  have hm := rne_mono _ _ hq
  rw [rne_intCast] at hm
  have hmq : ((2 ^ 52 : ℤ) : ℚ) ≤ (rne (a / ulp a) : ℚ) := by exact_mod_cast hm
  have e : (2 : ℚ) ^ expo a = ((2 ^ 52 : ℤ) : ℚ) * ulp a := by
    unfold ulp
    rw [zpow_sub₀ (by norm_num)]
    norm_num
    ring
  rw [e]
  exact mul_le_mul_of_nonneg_right hmq (le_of_lt hu)

theorem mantissa_le (a : ℚ) (ha : 0 < a) :
    (rne (a / ulp a) : ℚ) * ulp a ≤ (2 : ℚ) ^ (expo a + 1) := by
  have h1 := lt_zpow_expo a ha
  have hu := ulp_pos a
  have e : (2 : ℚ) ^ (expo a + 1) = ((2 ^ 53 : ℤ) : ℚ) * ulp a := by
    unfold ulp
    rw [zpow_sub₀ (by norm_num), zpow_add₀ (by norm_num)]
    norm_num
    ring
  have hq : a / ulp a ≤ ((2 ^ 53 : ℤ) : ℚ) := by
    rw [div_le_iff₀ hu, ← e]
    exact le_of_lt h1
  have hm := rne_mono _ _ hq
  rw [rne_intCast] at hm
  have hmq : (rne (a / ulp a) : ℚ) ≤ ((2 ^ 53 : ℤ) : ℚ) := by exact_mod_cast hm
  rw [e]
  exact mul_le_mul_of_nonneg_right hmq (le_of_lt hu)

theorem mantissa_mono (a b : ℚ) (ha : 0 < a) (hab : a ≤ b) :
    (rne (a / ulp a) : ℚ) * ulp a ≤ (rne (b / ulp b) : ℚ) * ulp b := by
  have hb : 0 < b := lt_of_lt_of_le ha hab
  have he := expo_mono a b ha hab
  rcases eq_or_lt_of_le he with heq | hlt
  · have hu : ulp a = ulp b := by
      unfold ulp
      rw [heq]
    rw [hu]
    have hq : a / ulp b ≤ b / ulp b := div_le_div_of_nonneg_right hab (le_of_lt (ulp_pos b))
    have hm := rne_mono _ _ hq
    have hmq : (rne (a / ulp b) : ℚ) ≤ (rne (b / ulp b) : ℚ) := by exact_mod_cast hm
    exact mul_le_mul_of_nonneg_right hmq (le_of_lt (ulp_pos b))
  · have h1 := mantissa_le a ha
    have h2 := mantissa_ge b hb (by have := expo_ge a; omega)
    have h3 : (2 : ℚ) ^ (expo a + 1) ≤ (2 : ℚ) ^ expo b :=
      zpow_le_zpow_right₀ (by norm_num) (by omega)
    linarith

theorem roundPos_zero : roundPos 0 = fin 0 := by
  rw [roundPos_eq]
  have h0 : rne ((0 : ℚ) / ulp 0) = 0 := by
    rw [zero_div]
    have := rne_intCast 0
    simpa using this
  rw [h0]
  norm_num

/-- A rounded non-negative value is `+Inf` or a non-negative finite value. -/
theorem roundPos_cases (a : ℚ) (ha : 0 ≤ a) :
    roundPos a = posInf ∨ ∃ r : ℚ, roundPos a = fin r ∧ 0 ≤ r := by
  rw [roundPos_eq]
  split_ifs
  · exact Or.inl rfl
  · exact Or.inr ⟨_, rfl, mantissa_nonneg a ha⟩

theorem roundPos_mono (a b : ℚ) (ha : 0 ≤ a) (hab : a ≤ b) :
    le (roundPos a) (roundPos b) = true := by
  rcases eq_or_lt_of_le ha with h0 | hpos
  · rw [← h0, roundPos_zero]
    rcases roundPos_cases b (le_trans ha hab) with h | ⟨r, h, hr⟩
    · rw [h]
      rfl
    · rw [h]
      simpa [le] using hr
  · have hm := mantissa_mono a b hpos hab
    rw [roundPos_eq, roundPos_eq]
    split_ifs with h1 h2 h2
    · rfl
    · exact absurd (le_trans h1 hm) h2
    · rfl
    · simpa [le] using hm

/-- The smallest positive binary64 number. -/
theorem roundPos_pos (a : ℚ) (ha : (2 : ℚ) ^ (-1074 : ℤ) ≤ a) :
    roundPos a = posInf ∨ ∃ r : ℚ, roundPos a = fin r ∧ 0 < r := by
  have hapos : 0 < a := lt_of_lt_of_le (by positivity) ha
  have hu := ulp_pos a
  have hq : ((1 : ℤ) : ℚ) ≤ a / ulp a := by
    rw [le_div_iff₀ hu]
    rcases eq_or_lt_of_le (expo_ge a) with he | he
    · have : ulp a = (2 : ℚ) ^ (-1074 : ℤ) := by
        unfold ulp
        rw [← he]
        norm_num
      rw [this]
      simpa using ha
    · have h1 := zpow_expo_le a hapos he
      have h2 : ulp a ≤ (2 : ℚ) ^ expo a := by
        unfold ulp
        exact zpow_le_zpow_right₀ (by norm_num) (by omega)
      simp only [Int.cast_one, one_mul]
      linarith
  have hm := rne_mono _ _ hq
  rw [rne_intCast] at hm
  have hmq : (1 : ℚ) ≤ (rne (a / ulp a) : ℚ) := by exact_mod_cast hm
  rw [roundPos_eq]
  split_ifs
  · exact Or.inl rfl
  · refine Or.inr ⟨_, rfl, ?_⟩
    exact mul_pos (by linarith) hu

/-- A finite rounded value is an integer multiple of `2 ^ (-1074)`. -/
theorem roundPos_grid (a r : ℚ) (h : roundPos a = fin r) :
    ∃ k : ℤ, r = (k : ℚ) * (2 : ℚ) ^ (-1074 : ℤ) := by
  rw [roundPos_eq] at h
  split_ifs at h
  injection h with h
  have he := expo_ge a
  obtain ⟨n, hn⟩ : ∃ n : ℕ, expo a + 1022 = (n : ℤ) := ⟨(expo a + 1022).toNat, by omega⟩
  refine ⟨rne (a / ulp a) * 2 ^ n, ?_⟩
  rw [← h]
  unfold ulp
  have : expo a - 52 = (n : ℤ) + (-1074) := by omega
  rw [this, zpow_add₀ (by norm_num), zpow_natCast]
  push_cast
  ring

end F64
namespace F64

/-! ### Rounding to binary64 -/

theorem neg_twice (x : F64) : neg (neg x) = x := by
  cases x <;> simp [neg]

theorem round_of_nonneg (x : ℚ) (h : 0 ≤ x) : round x = roundPos x := by
  unfold round
  rw [if_neg (not_lt.mpr h)]

theorem round_of_neg (x : ℚ) (h : x < 0) : round x = neg (roundPos (-x)) := by
  unfold round
  rw [if_pos h]

theorem round_zero : round 0 = fin 0 := by
  rw [round_of_nonneg 0 le_rfl, roundPos_zero]

theorem round_neg (x : ℚ) : round (-x) = neg (round x) := by
  rcases lt_trichotomy x 0 with h | h | h
  · rw [round_of_neg x h, neg_twice, round_of_nonneg (-x) (by linarith)]
  · subst h
    rw [neg_zero, round_zero]
    simp [neg]
  · rw [round_of_nonneg x (le_of_lt h), round_of_neg (-x) (by linarith), neg_neg]

/-- A rounded non-negative value is `+Inf` or a non-negative finite value. -/
theorem round_nonneg_cases (x : ℚ) (h : 0 ≤ x) :
    round x = posInf ∨ ∃ r : ℚ, round x = fin r ∧ 0 ≤ r := by
  rw [round_of_nonneg x h]
  exact roundPos_cases x h

/-- A rounded non-positive value is `-Inf` or a non-positive finite value. -/
theorem round_nonpos_cases (x : ℚ) (h : x ≤ 0) :
    round x = negInf ∨ ∃ r : ℚ, round x = fin r ∧ r ≤ 0 := by
  have hx : round x = neg (round (-x)) := by rw [round_neg, neg_twice]
  rcases round_nonneg_cases (-x) (by linarith) with h1 | ⟨r, h1, hr⟩
  · left
    rw [hx, h1]
    rfl
  · right
    exact ⟨-r, by rw [hx, h1]; rfl, by linarith⟩

theorem le_neg_neg (x y : F64) (h : le x y = true) : le (neg y) (neg x) = true := by
  cases x <;> cases y <;> simp_all [le, neg]

theorem round_mono (x y : ℚ) (h : x ≤ y) : le (round x) (round y) = true := by
  rcases le_or_lt 0 x with hx | hx
  · rw [round_of_nonneg x hx, round_of_nonneg y (le_trans hx h)]
    exact roundPos_mono x y hx h
  · rcases le_or_lt 0 y with hy | hy
    · rcases round_nonpos_cases x (le_of_lt hx) with h1 | ⟨r, h1, hr⟩ <;>
        rcases round_nonneg_cases y hy with h2 | ⟨s, h2, hs⟩
      · rw [h1, h2]
        rfl
      · rw [h1, h2]
        rfl
      · rw [h1, h2]
        rfl
      · rw [h1, h2]
        simpa [le] using le_trans hr hs
    · rw [round_of_neg x hx, round_of_neg y hy]
      exact le_neg_neg _ _ (roundPos_mono (-y) (-x) (by linarith) (by linarith))

/-- A value of at least `2 ^ (-1074)` rounds to a positive value. -/
theorem round_pos (x : ℚ) (h : (2 : ℚ) ^ (-1074 : ℤ) ≤ x) :
    round x = posInf ∨ ∃ r : ℚ, round x = fin r ∧ 0 < r := by
  have hx : 0 ≤ x := le_trans (by positivity) h
  rw [round_of_nonneg x hx]
  exact roundPos_pos x h

/-- A finite rounded value is an integer multiple of `2 ^ (-1074)`. -/
theorem round_grid (x r : ℚ) (h : round x = fin r) :
    ∃ k : ℤ, r = (k : ℚ) * (2 : ℚ) ^ (-1074 : ℤ) := by
  rcases le_or_lt 0 x with hx | hx
  · rw [round_of_nonneg x hx] at h
    exact roundPos_grid x r h
  · rw [round_of_neg x hx] at h
    cases hp : roundPos (-x) with
    | fin s =>
      rw [hp] at h
      simp only [neg] at h
      injection h with h
      obtain ⟨k, hk⟩ := roundPos_grid (-x) s hp
      exact ⟨-k, by rw [← h, hk]; push_cast; ring⟩
    | posInf => rw [hp] at h; cases h
    | negInf => rw [hp] at h; cases h
    | nan => rw [hp] at h; cases h

end F64

/-! ### Differences of binary64 numbers -/

theorem Float64.grid (v : Float64) : ∃ k : ℤ, v.val = (k : ℚ) * (2 : ℚ) ^ (-1074 : ℤ) :=
  F64.round_grid v.val v.val v.finite

/-- Two distinct binary64 numbers differ by at least `2 ^ (-1074)`. -/
theorem Float64.gap (a b : Float64) (h : a.val < b.val) :
    (2 : ℚ) ^ (-1074 : ℤ) ≤ b.val - a.val := by
  obtain ⟨ka, ha⟩ := a.grid
  obtain ⟨kb, hb⟩ := b.grid
  have hu : (0 : ℚ) < (2 : ℚ) ^ (-1074 : ℤ) := by positivity
  rw [ha, hb] at h ⊢
  have hk : ka < kb := by
    by_contra hk
    have : (kb : ℚ) ≤ ka := by exact_mod_cast not_lt.mp hk
    nlinarith
  have hk1 : (ka : ℚ) + 1 ≤ kb := by exact_mod_cast hk
  nlinarith

/-- The sign of a computed difference is the sign of the exact one. -/
theorem sub_cases (a b : Float64) :
    (b.val < a.val ∧
      (F64.sub b.val a.val = F64.negInf ∨ ∃ d : ℚ, F64.sub b.val a.val = F64.fin d ∧ d < 0)) ∨
    (b.val = a.val ∧ F64.sub b.val a.val = F64.fin 0) ∨
    (a.val < b.val ∧
      (F64.sub b.val a.val = F64.posInf ∨ ∃ d : ℚ, F64.sub b.val a.val = F64.fin d ∧ 0 < d)) := by
  unfold F64.sub
  rcases lt_trichotomy b.val a.val with h | h | h
  · left
    refine ⟨h, ?_⟩
    have hg := Float64.gap b a h
    have hr : F64.round (b.val - a.val) = F64.neg (F64.round (a.val - b.val)) := by
      rw [← F64.round_neg]
      congr 1
      ring
    rcases F64.round_pos _ hg with h1 | ⟨r, h1, hr0⟩
    · left
      rw [hr, h1]
      rfl
    · right
      exact ⟨-r, by rw [hr, h1]; rfl, by linarith⟩
  · right
    left
    refine ⟨h, ?_⟩
    rw [h, sub_self, F64.round_zero]
  · right
    right
    exact ⟨h, F64.round_pos _ (Float64.gap a b h)⟩

theorem lt_zero_sub (a b : Float64) :
    F64.lt (F64.sub b.val a.val) (F64.fin 0) = decide (b.val - a.val < 0) := by
  rcases sub_cases a b with ⟨h, h1 | ⟨d, h1, hd⟩⟩ | ⟨h, h1⟩ | ⟨h, h1 | ⟨d, h1, hd⟩⟩
  · rw [h1]
    simp [F64.lt, h]
  · rw [h1]
    simp [F64.lt, h, hd]
  · rw [h1]
    simp [F64.lt, h]
  · rw [h1]
    simp [F64.lt, le_of_lt h]
  · rw [h1]
    simp [F64.lt, not_lt.mpr (le_of_lt h), not_lt.mpr (le_of_lt hd)]

theorem delta_processConnection_eq (cfg : Config) (w : World) (org : Organization)
    (scAgg : ConnectionBucket) :
    Delta.processConnection cfg w org scAgg =
      connectionRun Delta.passes Delta.delta Event.logPrintln cfg w org scAgg := rfl

theorem trends_processConnection_eq (cfg : Config) (w : World) (org : Organization)
    (scAgg : ConnectionBucket) :
    Trends.processConnection cfg w org scAgg =
      connectionRun Trends.passes Trends.delta (Trends.deliver cfg) cfg w org scAgg := rfl

theorem connectionRun_short (test : Float64 → Float64 → F64 → Bool)
    (pct : Float64 → Float64 → F64)
    (sink : String → Event) (cfg : Config) (w : World) (org : Organization)
    (scAgg : ConnectionBucket) (h : scAgg.Daily.length ≤ 1) :
    connectionRun test pct sink cfg w org scAgg = ⟨[], Status.done⟩ := by
  unfold connectionRun
  rw [if_neg (by omega)]

theorem connectionRun_two (test : Float64 → Float64 → F64 → Bool)
    (pct : Float64 → Float64 → F64)
    (sink : String → Event) (cfg : Config) (w : World) (org : Organization)
    (scAgg : ConnectionBucket) (b0 b1 : DailyBucket) (rest : List DailyBucket)
    (h : scAgg.Daily = b0 :: b1 :: rest) :
    connectionRun test pct sink cfg w org scAgg =
      if test b0.TotalUsage b1.TotalUsage cfg.THRESHOLD then
        match w.getServiceConnection scAgg.Key with
        | none =>
          ⟨[Event.getServiceConnection scAgg.Key], Status.fatal "Error getting service connection: "⟩
        | some scData =>
          match alertOutput w org scData b0 b1 (F64.sub b1.TotalUsage.val b0.TotalUsage.val)
              (pct b0.TotalUsage b1.TotalUsage) with
          | Except.error e => ⟨[Event.getServiceConnection scAgg.Key], Status.panic e⟩
          | Except.ok output =>
            ⟨[Event.getServiceConnection scAgg.Key, sink output], Status.done⟩
      else ⟨[], Status.done⟩ := by
  unfold connectionRun
  simp [h]

theorem gateOf_short (test : Float64 → Float64 → F64 → Bool) (cfg : Config) (scAgg : ConnectionBucket)
    (h : scAgg.Daily.length ≤ 1) : gateOf test cfg scAgg = false := by
  unfold gateOf
  match hd : scAgg.Daily with
  | [] => rfl
  | [_] => rfl
  | _ :: _ :: _ => simp [hd] at h

theorem connectionRun_gate_false (test : Float64 → Float64 → F64 → Bool)
    (pct : Float64 → Float64 → F64)
    (sink : String → Event) (cfg : Config) (w : World) (org : Organization)
    (scAgg : ConnectionBucket) (h : gateOf test cfg scAgg = false) :
    connectionRun test pct sink cfg w org scAgg = ⟨[], Status.done⟩ := by
  match hd : scAgg.Daily with
  | [] => exact connectionRun_short test pct sink cfg w org scAgg (by simp [hd])
  | [_] => exact connectionRun_short test pct sink cfg w org scAgg (by simp [hd])
  | b0 :: b1 :: rest =>
    rw [connectionRun_two test pct sink cfg w org scAgg b0 b1 rest hd]
    simp only [gateOf, hd] at h
    simp [h]

/-- The four ways the body of the connection loop can end. -/
theorem connectionRun_cases (test : Float64 → Float64 → F64 → Bool)
    (pct : Float64 → Float64 → F64)
    (sink : String → Event) (cfg : Config) (w : World) (org : Organization)
    (scAgg : ConnectionBucket) :
    (gateOf test cfg scAgg = false ∧
      connectionRun test pct sink cfg w org scAgg = ⟨[], Status.done⟩) ∨
    (gateOf test cfg scAgg = true ∧ w.getServiceConnection scAgg.Key = none ∧
      connectionRun test pct sink cfg w org scAgg =
        ⟨[Event.getServiceConnection scAgg.Key],
          Status.fatal "Error getting service connection: "⟩) ∨
    (gateOf test cfg scAgg = true ∧
      ∃ b0 b1 rest scData e, scAgg.Daily = b0 :: b1 :: rest ∧
        w.getServiceConnection scAgg.Key = some scData ∧
        alertOutput w org scData b0 b1 (F64.sub b1.TotalUsage.val b0.TotalUsage.val)
          (pct b0.TotalUsage b1.TotalUsage) = Except.error e ∧
        connectionRun test pct sink cfg w org scAgg =
          ⟨[Event.getServiceConnection scAgg.Key], Status.panic e⟩) ∨
    (gateOf test cfg scAgg = true ∧
      ∃ b0 b1 rest scData output, scAgg.Daily = b0 :: b1 :: rest ∧
        w.getServiceConnection scAgg.Key = some scData ∧
        alertOutput w org scData b0 b1 (F64.sub b1.TotalUsage.val b0.TotalUsage.val)
          (pct b0.TotalUsage b1.TotalUsage) = Except.ok output ∧
        connectionRun test pct sink cfg w org scAgg =
          ⟨[Event.getServiceConnection scAgg.Key, sink output], Status.done⟩) := by
  cases hg : gateOf test cfg scAgg with
  | false => exact Or.inl ⟨rfl, connectionRun_gate_false test pct sink cfg w org scAgg hg⟩
  | true =>
    right
    match hd : scAgg.Daily with
    | [] => simp [gateOf, hd] at hg
    | [_] => simp [gateOf, hd] at hg
    | b0 :: b1 :: rest =>
      have ht : test b0.TotalUsage b1.TotalUsage cfg.THRESHOLD = true := by
        simpa only [gateOf, hd] using hg
      have hrun := connectionRun_two test pct sink cfg w org scAgg b0 b1 rest hd
      rw [if_pos ht] at hrun
      cases hl : w.getServiceConnection scAgg.Key with
      | none =>
        rw [hl] at hrun
        exact Or.inl ⟨rfl, rfl, hrun⟩
      | some scData =>
        rw [hl] at hrun
        right
        cases ha : alertOutput w org scData b0 b1 (F64.sub b1.TotalUsage.val b0.TotalUsage.val)
            (pct b0.TotalUsage b1.TotalUsage) with
        | error e =>
          simp only [ha] at hrun
          exact Or.inl ⟨rfl, b0, b1, rest, scData, e, rfl, rfl, ha, hrun⟩
        | ok output =>
          simp only [ha] at hrun
          exact Or.inr ⟨rfl, b0, b1, rest, scData, output, rfl, rfl, ha, hrun⟩

/-! ### float64 comparisons -/

theorem gt_nan_left (t : F64) : F64.gt F64.nan t = false := by
  cases t <;> rfl

theorem gt_fin (a b : ℚ) : F64.gt (F64.fin a) (F64.fin b) = true ↔ b < a := by
  simp [F64.gt, F64.lt]

theorem gt_irrefl (x : F64) : F64.gt x x = false := by
  cases x <;> simp [F64.gt, F64.lt]

theorem gt_of_le_of_gt (x y t : F64) (h : F64.le x y = true) (hx : F64.gt x t = true) :
    F64.gt y t = true := by
  cases x <;> cases y <;> cases t <;> simp_all [F64.gt, F64.lt, F64.le]
  exact lt_of_lt_of_le hx h

theorem le_trans_f64 (x y z : F64) (h1 : F64.le x y = true) (h2 : F64.le y z = true) :
    F64.le x z = true := by
  cases x <;> cases y <;> cases z <;> simp_all [F64.le]
  exact le_trans h1 h2

/-! ### Runs -/

theorem forEach_nil {α : Type} (body : α → Run) : forEach [] body = ⟨[], Status.done⟩ := rfl

theorem forEach_cons {α : Type} (x : α) (xs : List α) (body : α → Run) :
    forEach (x :: xs) body = (body x).seq (forEach xs body) := rfl

theorem seq_events_mem (r next : Run) (e : Event) (h : e ∈ (r.seq next).events) :
    e ∈ r.events ∨ e ∈ next.events := by
  unfold Run.seq at h
  split at h
  · simpa using h
  · exact Or.inl h

theorem seq_done (r next : Run) (h : (r.seq next).status = Status.done) :
    r.status = Status.done ∧ next.status = Status.done ∧
      (r.seq next).events = r.events ++ next.events := by
  unfold Run.seq at h ⊢
  split at h
  · rename_i hr
    simp [hr] at h ⊢
    exact h
  · rename_i hr
    exact absurd h hr

theorem forEach_events_mem {α : Type} (xs : List α) (body : α → Run) (e : Event)
    (h : e ∈ (forEach xs body).events) : ∃ x ∈ xs, e ∈ (body x).events := by
  induction xs with
  | nil => simp [forEach] at h
  | cons x xs ih =>
    rcases seq_events_mem _ _ e h with h1 | h2
    · exact ⟨x, by simp, h1⟩
    · obtain ⟨y, hy, hey⟩ := ih h2
      exact ⟨y, by simp [hy], hey⟩

theorem forEach_done {α : Type} (xs : List α) (body : α → Run)
    (h : (forEach xs body).status = Status.done) :
    (∀ x ∈ xs, (body x).status = Status.done) ∧
      (forEach xs body).events = xs.flatMap fun x => (body x).events := by
  induction xs with
  | nil => simp [forEach]
  | cons x xs ih =>
    obtain ⟨h1, h2, h3⟩ := seq_done _ _ h
    obtain ⟨ih1, ih2⟩ := ih h2
    refine ⟨?_, ?_⟩
    · intro y hy
      rcases List.mem_cons.mp hy with rfl | hy
      · exact h1
      · exact ih1 y hy
    · rw [forEach_cons, h3, ih2]
      simp

theorem forEach_all_skipped {α : Type} (xs : List α) (body : α → Run)
    (h : ∀ x ∈ xs, body x = ⟨[], Status.done⟩) : forEach xs body = ⟨[], Status.done⟩ := by
  induction xs with
  | nil => rfl
  | cons x xs ih =>
    rw [forEach_cons, h x (by simp), ih (fun y hy => h y (by simp [hy]))]
    rfl

/-! ### The alert line -/

theorem Sprintf_alertFormat (verb : String) (delta : F64)
    (orgName scType scName dayOne dayTwo v0 v1 : String) :
    Sprintf alertFormat
      [Arg.str verb, Arg.float delta, Arg.str orgName, Arg.str scType, Arg.str scName,
        Arg.str dayOne, Arg.str dayTwo, Arg.str v0, Arg.str v1] =
      specAlertLine verb (fmtFloat 1 delta) orgName scType scName dayOne dayTwo v0 v1 := by
  apply String.ext
  simp [Sprintf, SprintfFrom, alertFormat, specAlertLine]

/-- The verb chosen from the computed difference is the verb of the sign of the
exact difference. -/
theorem verb_eq_specVerb (a b : Float64) :
    (if F64.lt (F64.sub b.val a.val) (F64.fin 0) = true then "decreased" else "increased") =
      specVerb (b.val - a.val) := by
  rw [lt_zero_sub]
  unfold specVerb
  by_cases h : b.val - a.val < 0
  · rw [if_pos (by simpa using h), if_neg (not_le.mpr h)]
  · rw [if_neg (by simpa using h), if_pos (not_lt.mp h)]

theorem parseDay_ok (s : String) (d : Date) (h : parseDay s = Except.ok d) :
    8 ≤ s.utf8ByteSize ∧ d = (timeParse (s.toList.take 8)).getD Date.zero := by
  unfold parseDay at h
  split at h
  · cases h
  · rename_i hlt
    injection h with h
    exact ⟨by omega, h.symm⟩

theorem parseDay_of_size (s : String) (h : 8 ≤ s.utf8ByteSize) :
    parseDay s = Except.ok ((timeParse (s.toList.take 8)).getD Date.zero) := by
  unfold parseDay
  rw [if_neg (by omega)]

/-- What a rendered alert line is made of. -/
theorem alertOutput_ok (w : World) (org : Organization) (scData : ServiceConnection)
    (b0 b1 : DailyBucket) (dif : F64) (delta : F64) (output : String)
    (h : alertOutput w org scData b0 b1 dif delta = Except.ok output) :
    ∃ dayOne dayTwo orgName scType scName,
      parseDay b0.KeyAsString = Except.ok dayOne ∧ parseDay b1.KeyAsString = Except.ok dayTwo ∧
      org.Name = some orgName ∧ scData.Type_ = some scType ∧ scData.Name = some scName ∧
      output = specAlertLine
        (if F64.lt dif (F64.fin 0) = true then "decreased" else "increased")
        (fmtFloat 1 delta) orgName (w.title scType) scName
        dayOne.Format dayTwo.Format (cpSprintf2 b0.TotalUsage.val)
        (cpSprintf2 b1.TotalUsage.val) := by
  unfold alertOutput at h
  cases h0 : parseDay b0.KeyAsString with
  | error e => simp [h0] at h
  | ok dayOne =>
    cases h1 : parseDay b1.KeyAsString with
    | error e => simp [h0, h1] at h
    | ok dayTwo =>
      cases ho : org.Name with
      | none => simp [h0, h1, ho, deref] at h
      | some orgName =>
        cases ht : scData.Type_ with
        | none => simp [h0, h1, ho, ht, deref] at h
        | some scType =>
          cases hn : scData.Name with
          | none => simp [h0, h1, ho, ht, hn, deref] at h
          | some scName =>
            simp only [h0, h1, ho, ht, hn, deref, Sprintf_alertFormat] at h
            injection h with h
            exact ⟨dayOne, dayTwo, orgName, scType, scName, rfl, rfl, rfl, rfl, rfl, h.symm⟩

/-- A rendered alert line, when every part is there. -/
theorem alertOutput_of_parts (w : World) (org : Organization) (scData : ServiceConnection)
    (b0 b1 : DailyBucket) (dif : F64) (delta : F64) (dayOne dayTwo : Date)
    (orgName scType scName : String)
    (h0 : parseDay b0.KeyAsString = Except.ok dayOne)
    (h1 : parseDay b1.KeyAsString = Except.ok dayTwo)
    (ho : org.Name = some orgName) (ht : scData.Type_ = some scType)
    (hn : scData.Name = some scName) :
    alertOutput w org scData b0 b1 dif delta =
      Except.ok (specAlertLine
        (if F64.lt dif (F64.fin 0) = true then "decreased" else "increased")
        (fmtFloat 1 delta) orgName (w.title scType) scName
        dayOne.Format dayTwo.Format (cpSprintf2 b0.TotalUsage.val)
        (cpSprintf2 b1.TotalUsage.val)) := by
  unfold alertOutput
  simp only [h0, h1, ho, ht, hn, deref, Sprintf_alertFormat]

/-! ### The connection loop -/

theorem logPrintln_alertText (output : String) :
    (Event.logPrintln output).alertText = some output := rfl

theorem deliver_alertText (cfg : Config) (output : String) :
    (Trends.deliver cfg output).alertText = some output := by
  unfold Trends.deliver
  split <;> rfl

theorem deliver_lookupKey (cfg : Config) (output : String) :
    (Trends.deliver cfg output).lookupKey = none := by
  unfold Trends.deliver
  split <;> rfl

/-- The lookups and alerts of the body of the connection loop. -/
theorem connectionRun_trace (test : Float64 → Float64 → F64 → Bool)
    (pct : Float64 → Float64 → F64)
    (sink : String → Event) (cfg : Config) (w : World) (org : Organization)
    (scAgg : ConnectionBucket)
    (hs : ∀ o, (sink o).alertText = some o) (hk : ∀ o, (sink o).lookupKey = none) :
    (connectionRun test pct sink cfg w org scAgg).lookups =
        (if gateOf test cfg scAgg then [scAgg.Key] else []) ∧
    (∀ out ∈ (connectionRun test pct sink cfg w org scAgg).alerts,
      (connectionRun test pct sink cfg w org scAgg).alerts = [out] ∧
      (connectionRun test pct sink cfg w org scAgg).status = Status.done ∧
      gateOf test cfg scAgg = true ∧
      ∃ b0 b1 rest scData, scAgg.Daily = b0 :: b1 :: rest ∧
        w.getServiceConnection scAgg.Key = some scData ∧
        alertOutput w org scData b0 b1 (F64.sub b1.TotalUsage.val b0.TotalUsage.val)
          (pct b0.TotalUsage b1.TotalUsage) = Except.ok out) ∧
    ((connectionRun test pct sink cfg w org scAgg).status = Status.done →
      gateOf test cfg scAgg = true →
      (connectionRun test pct sink cfg w org scAgg).alerts.length = 1) := by
  rcases connectionRun_cases test pct sink cfg w org scAgg with
    ⟨hg, hr⟩ | ⟨hg, _, hr⟩ | ⟨hg, b0, b1, rest, scData, e, _, _, _, hr⟩ |
    ⟨hg, b0, b1, rest, scData, output, hd, hl, ha, hr⟩
  · rw [hr, hg]
    simp [Run.lookups, Run.alerts]
  · rw [hr, hg]
    simp [Run.lookups, Run.alerts, Event.lookupKey, Event.alertText]
  · rw [hr, hg]
    simp [Run.lookups, Run.alerts, Event.lookupKey, Event.alertText]
  · have e1 : (Event.getServiceConnection scAgg.Key).lookupKey = some scAgg.Key := rfl
    have e2 : (Event.getServiceConnection scAgg.Key).alertText = none := rfl
    have hlk : (⟨[Event.getServiceConnection scAgg.Key, sink output], Status.done⟩ : Run).lookups =
        [scAgg.Key] := by
      simp only [Run.lookups, List.filterMap_cons, e1, hk, List.filterMap_nil]
    have hal : (⟨[Event.getServiceConnection scAgg.Key, sink output], Status.done⟩ : Run).alerts =
        [output] := by
      simp only [Run.alerts, List.filterMap_cons, e2, hs, List.filterMap_nil]
    rw [hr, hg, hlk, hal]
    refine ⟨rfl, ?_, ?_⟩
    · intro out hout
      have : out = output := by simpa using hout
      subst this
      exact ⟨rfl, rfl, rfl, b0, b1, rest, scData, hd, hl, ha⟩
    · intro _ _
      rfl

/-- C1: in both programs a connection bucket with zero or one daily bucket is
skipped: its processing produces no event at all (no alert, no
service-connection lookup) and ends normally, so neither `Daily.Buckets[0]`
nor `Daily.Buckets[1]` is read out of range; a result made of such connections
only produces no event and ends normally. -/
theorem short_connection_skipped (cfg : Config) (w : World) (org : Organization)
    (scAgg : ConnectionBucket) (h : scAgg.Daily.length ≤ 1) :
    Delta.processConnection cfg w org scAgg = ⟨[], Status.done⟩ ∧
    Trends.processConnection cfg w org scAgg = ⟨[], Status.done⟩ ∧
    (∀ result : QueryResult,
      (∀ orgAgg ∈ result.Buckets, ∀ sc ∈ orgAgg.Connection, sc.Daily.length ≤ 1) →
      Delta.processResult cfg w org result = ⟨[], Status.done⟩ ∧
      Trends.processResult cfg w org result = ⟨[], Status.done⟩) := by
  refine ⟨connectionRun_short _ _ _ cfg w org scAgg h,
    connectionRun_short _ _ _ cfg w org scAgg h, ?_⟩
  intro result hall
  constructor
  · exact forEach_all_skipped _ _ fun orgAgg ho =>
      forEach_all_skipped _ _ fun sc hsc => connectionRun_short _ _ _ cfg w org sc (hall orgAgg ho sc hsc)
  · exact forEach_all_skipped _ _ fun orgAgg ho =>
      forEach_all_skipped _ _ fun sc hsc => connectionRun_short _ _ _ cfg w org sc (hall orgAgg ho sc hsc)

theorem short_connection_skipped_witness :
    (conn1 [dailyBucket "20240114T000000.000Z" d100]).Daily.length ≤ 1 ∧
    Delta.processConnection (plainConfig threshold005) (worldOf (some acmeAws) (resultOf []))
      acme (conn1 [dailyBucket "20240114T000000.000Z" d100]) = ⟨[], Status.done⟩ ∧
    Trends.processConnection (plainConfig threshold005) (worldOf (some acmeAws) (resultOf []))
      acme (conn1 [dailyBucket "20240114T000000.000Z" d100]) = ⟨[], Status.done⟩ :=
  ⟨by decide,
    (short_connection_skipped (plainConfig threshold005)
      (worldOf (some acmeAws) (resultOf [])) acme
      (conn1 [dailyBucket "20240114T000000.000Z" d100]) (by decide)).1,
    (short_connection_skipped (plainConfig threshold005)
      (worldOf (some acmeAws) (resultOf [])) acme
      (conn1 [dailyBucket "20240114T000000.000Z" d100]) (by decide)).2.1⟩

/-! ### Magnitudes -/

theorem trends_denominator_eq (v0 v1 : Float64) :
    Trends.denominator v0 v1 = if 0 ≤ v1.val - v0.val then v0 else v1 := by
  unfold Trends.denominator
  simp only [lt_zero_sub]
  by_cases h : v1.val - v0.val < 0
  · rw [if_pos (by simpa using h), if_neg (not_le.mpr h)]
  · rw [if_neg (by simpa using h), if_pos (not_lt.mp h)]

theorem trends_denominator_val (v0 v1 : Float64) :
    (Trends.denominator v0 v1).val = specDirectionalDenominator v0.val v1.val := by
  rw [trends_denominator_eq]
  unfold specDirectionalDenominator
  split <;> rfl

theorem trends_delta_eq (v0 v1 : Float64) :
    Trends.delta v0 v1 =
      specMagnitude v0.val v1.val (specDirectionalDenominator v0.val v1.val) := by
  unfold Trends.delta specMagnitude
  simp only [trends_denominator_val]

theorem trends_passes_eq (v0 v1 : Float64) (t : F64) :
    Trends.passes v0 v1 t =
      F64.gt (F64.abs (F64.div (F64.sub v1.val v0.val)
        (specDirectionalDenominator v0.val v1.val))) t := by
  unfold Trends.passes
  simp only [trends_denominator_val]

theorem delta_delta_eq (v0 v1 : Float64) :
    Delta.delta v0 v1 = specMagnitude v0.val v1.val v0.val := rfl

theorem delta_passes_eq (v0 v1 : Float64) (t : F64) :
    Delta.passes v0 v1 t =
      F64.gt (F64.abs (F64.div (F64.sub v1.val v0.val) v0.val)) t := rfl

/-- The lookups and the alerts of the body of the connection loop on a
connection with at least two daily buckets. -/
theorem connectionRun_two_trace (test : Float64 → Float64 → F64 → Bool)
    (pct : Float64 → Float64 → F64)
    (sink : String → Event) (cfg : Config) (w : World) (org : Organization)
    (key : String) (count : Int) (b0 b1 : DailyBucket) (rest : List DailyBucket)
    (hs : ∀ o, (sink o).alertText = some o) (hk : ∀ o, (sink o).lookupKey = none) :
    ((connectionRun test pct sink cfg w org ⟨key, count, b0 :: b1 :: rest⟩).lookups = [key] ↔
      test b0.TotalUsage b1.TotalUsage cfg.THRESHOLD = true) ∧
    (∀ out ∈ (connectionRun test pct sink cfg w org ⟨key, count, b0 :: b1 :: rest⟩).alerts,
      test b0.TotalUsage b1.TotalUsage cfg.THRESHOLD = true ∧
      ∃ orgName scType scName dayOne dayTwo,
        out = specAlertLine (specVerb (b1.TotalUsage.val - b0.TotalUsage.val))
          (fmtFloat 1 (pct b0.TotalUsage b1.TotalUsage)) orgName scType scName dayOne dayTwo
          (cpSprintf2 b0.TotalUsage.val) (cpSprintf2 b1.TotalUsage.val)) := by
  obtain ⟨h1, h2, _⟩ := connectionRun_trace test pct sink cfg w org
    ⟨key, count, b0 :: b1 :: rest⟩ hs hk
  constructor
  · rw [h1]
    show (if test b0.TotalUsage b1.TotalUsage cfg.THRESHOLD = true then [key] else []) = [key] ↔ _
    by_cases ht : test b0.TotalUsage b1.TotalUsage cfg.THRESHOLD = true
    · simp [ht]
    · simp [ht]
  · intro out hout
    obtain ⟨_, _, hg, c0, c1, rest', scData, hd, _, ha⟩ := h2 out hout
    have hd' : b0 :: b1 :: rest = c0 :: c1 :: rest' := hd
    injection hd' with e0 hd'
    injection hd' with e1 _
    subst e0 e1
    obtain ⟨dayOne, dayTwo, orgName, scType, scName, _, _, _, _, _, hout⟩ :=
      alertOutput_ok w org scData b0 b1 _ _ out ha
    rw [verb_eq_specVerb] at hout
    exact ⟨hg, orgName, w.title scType, scName, dayOne.Format, dayTwo.Format, hout⟩

/-- C3: in cloudmc_usage_trends, for daily values `v0`, `v1` with
`diff = v1 - v0`, the denominator is `v0` when `diff >= 0` and `v1` when
`diff < 0`; the threshold test (which decides whether the lookup is made) and
the percentage printed in every alert both use it, the magnitude being
`|diff / denominator| * 100` computed in `float64`; for `v0 = 200`, `v1 = 50`
the denominator is 50 and the magnitude is 300, not 75. -/
theorem trends_directional_baseline (cfg : Config) (w : World) (org : Organization)
    (key : String) (count : Int) (b0 b1 : DailyBucket) (rest : List DailyBucket) :
    Trends.denominator b0.TotalUsage b1.TotalUsage =
      (if 0 ≤ b1.TotalUsage.val - b0.TotalUsage.val then b0.TotalUsage else b1.TotalUsage) ∧
    ((Trends.processConnection cfg w org ⟨key, count, b0 :: b1 :: rest⟩).lookups = [key] ↔
      F64.gt (F64.abs (F64.div (F64.sub b1.TotalUsage.val b0.TotalUsage.val)
        (if 0 ≤ b1.TotalUsage.val - b0.TotalUsage.val then b0.TotalUsage.val
          else b1.TotalUsage.val))) cfg.THRESHOLD = true) ∧
    (∀ out ∈ (Trends.processConnection cfg w org ⟨key, count, b0 :: b1 :: rest⟩).alerts,
      ∃ orgName scType scName dayOne dayTwo,
        out = specAlertLine (specVerb (b1.TotalUsage.val - b0.TotalUsage.val))
          (fmtFloat 1 (F64.scale (F64.abs (F64.div
            (F64.sub b1.TotalUsage.val b0.TotalUsage.val)
            (if 0 ≤ b1.TotalUsage.val - b0.TotalUsage.val then b0.TotalUsage.val
              else b1.TotalUsage.val))) 100))
          orgName scType scName dayOne dayTwo
          (cpSprintf2 b0.TotalUsage.val) (cpSprintf2 b1.TotalUsage.val)) ∧
    Trends.delta b0.TotalUsage b1.TotalUsage =
      F64.scale (F64.abs (F64.div (F64.sub b1.TotalUsage.val b0.TotalUsage.val)
        (if 0 ≤ b1.TotalUsage.val - b0.TotalUsage.val then b0.TotalUsage.val
          else b1.TotalUsage.val))) 100 ∧
    (Trends.denominator d200 d50).val = 50 ∧ Trends.delta d200 d50 = F64.fin 300 ∧
    Trends.delta d200 d50 ≠ F64.fin 75 := by
  obtain ⟨h1, h2⟩ := connectionRun_two_trace Trends.passes Trends.delta (Trends.deliver cfg)
    cfg w org key count b0 b1 rest (deliver_alertText cfg) (deliver_lookupKey cfg)
  have hden := trends_denominator_eq b0.TotalUsage b1.TotalUsage
  have hp := trends_passes_eq b0.TotalUsage b1.TotalUsage cfg.THRESHOLD
  have hm := trends_delta_eq b0.TotalUsage b1.TotalUsage
  unfold specMagnitude at hm
  unfold specDirectionalDenominator at hp hm
  refine ⟨hden, ?_, ?_, hm, by decide!, by decide!, by decide!⟩
  · rw [trends_processConnection_eq, h1, hp]
  · intro out hout
    rw [trends_processConnection_eq] at hout
    obtain ⟨_, h⟩ := h2 out hout
    rw [hm] at h
    exact h

/-- C4: in cloudmc_usage_delta, for daily values `v0`, `v1` the denominator of
the threshold test (which decides whether the lookup is made) and of the
percentage printed in every alert is `v0`, whatever the sign of
`diff = v1 - v0`, the magnitude being `|diff / v0| * 100` computed in
`float64`; for `v0 = 200`, `v1 = 50` the magnitude is 75. -/
theorem delta_fixed_baseline (cfg : Config) (w : World) (org : Organization)
    (key : String) (count : Int) (b0 b1 : DailyBucket) (rest : List DailyBucket) :
    ((Delta.processConnection cfg w org ⟨key, count, b0 :: b1 :: rest⟩).lookups = [key] ↔
      F64.gt (F64.abs (F64.div (F64.sub b1.TotalUsage.val b0.TotalUsage.val)
        b0.TotalUsage.val)) cfg.THRESHOLD = true) ∧
    (∀ out ∈ (Delta.processConnection cfg w org ⟨key, count, b0 :: b1 :: rest⟩).alerts,
      ∃ orgName scType scName dayOne dayTwo,
        out = specAlertLine (specVerb (b1.TotalUsage.val - b0.TotalUsage.val))
          (fmtFloat 1 (F64.scale (F64.abs (F64.div
            (F64.sub b1.TotalUsage.val b0.TotalUsage.val) b0.TotalUsage.val)) 100))
          orgName scType scName dayOne dayTwo
          (cpSprintf2 b0.TotalUsage.val) (cpSprintf2 b1.TotalUsage.val)) ∧
    Delta.delta b0.TotalUsage b1.TotalUsage =
      F64.scale (F64.abs (F64.div (F64.sub b1.TotalUsage.val b0.TotalUsage.val)
        b0.TotalUsage.val)) 100 ∧
    Delta.delta d200 d50 = F64.fin 75 ∧ Delta.delta d50 d200 = F64.fin 300 ∧
    Trends.delta d200 d50 = F64.fin 300 := by
  obtain ⟨h1, h2⟩ := connectionRun_two_trace Delta.passes Delta.delta Event.logPrintln
    cfg w org key count b0 b1 rest logPrintln_alertText (fun _ => rfl)
  refine ⟨?_, ?_, rfl, by decide!, by decide!, by decide!⟩
  · rw [delta_processConnection_eq, h1]
    rfl
  · intro out hout
    rw [delta_processConnection_eq] at hout
    exact (h2 out hout).2

/-! ### Magnitude and direction of an alert -/

theorem ge_zero_of_gt_abs (x t : F64) (h : F64.gt (F64.abs x) t = true) :
    F64.ge (F64.scale (F64.abs x) 100) (F64.fin 0) = true := by
  cases x with
  | fin q =>
    simp only [F64.abs, F64.scale]
    rcases F64.round_nonneg_cases (|q| * 100) (by positivity) with h1 | ⟨r, h1, hr⟩
    · rw [h1]
      rfl
    · rw [h1]
      simpa [F64.ge, F64.le] using hr
  | posInf => norm_num [F64.abs, F64.scale, F64.ge, F64.le]
  | negInf => norm_num [F64.abs, F64.scale, F64.ge, F64.le]
  | nan => simp [F64.abs, gt_nan_left] at h

theorem specVerb_increased (diff : ℚ) : specVerb diff = "increased" ↔ 0 ≤ diff := by
  unfold specVerb
  by_cases h : 0 ≤ diff
  · simp [h]
  · simp only [if_neg h, h, iff_false]
    decide

theorem specVerb_decreased (diff : ℚ) : specVerb diff = "decreased" ↔ diff < 0 := by
  unfold specVerb
  by_cases h : 0 ≤ diff
  · simp only [if_pos h, not_lt.mpr h, iff_false]
    decide
  · simp [h, not_le.mp h]

/-- C5: in both programs every alert emitted for a connection is the alert
line of a verb and a percentage such that the percentage is at least 0 and the
verb is `increased` exactly when `diff = value[1] - value[0]` is at least 0
(zero included) and `decreased` exactly when `diff` is below 0. -/
theorem alert_magnitude_and_direction (cfg : Config) (w : World) (org : Organization)
    (key : String) (count : Int) (b0 b1 : DailyBucket) (rest : List DailyBucket) (out : String) :
    (out ∈ (Delta.processConnection cfg w org ⟨key, count, b0 :: b1 :: rest⟩).alerts →
      ∃ verb magnitude orgName scType scName dayOne dayTwo,
        out = specAlertLine verb (fmtFloat 1 magnitude) orgName scType scName dayOne dayTwo
          (cpSprintf2 b0.TotalUsage.val) (cpSprintf2 b1.TotalUsage.val) ∧
        magnitude = Delta.delta b0.TotalUsage b1.TotalUsage ∧
        F64.ge magnitude (F64.fin 0) = true ∧
        (verb = "increased" ↔ 0 ≤ b1.TotalUsage.val - b0.TotalUsage.val) ∧
        (verb = "decreased" ↔ b1.TotalUsage.val - b0.TotalUsage.val < 0)) ∧
    (out ∈ (Trends.processConnection cfg w org ⟨key, count, b0 :: b1 :: rest⟩).alerts →
      ∃ verb magnitude orgName scType scName dayOne dayTwo,
        out = specAlertLine verb (fmtFloat 1 magnitude) orgName scType scName dayOne dayTwo
          (cpSprintf2 b0.TotalUsage.val) (cpSprintf2 b1.TotalUsage.val) ∧
        magnitude = Trends.delta b0.TotalUsage b1.TotalUsage ∧
        F64.ge magnitude (F64.fin 0) = true ∧
        (verb = "increased" ↔ 0 ≤ b1.TotalUsage.val - b0.TotalUsage.val) ∧
        (verb = "decreased" ↔ b1.TotalUsage.val - b0.TotalUsage.val < 0)) := by
  constructor
  · intro hout
    rw [delta_processConnection_eq] at hout
    obtain ⟨hg, orgName, scType, scName, dayOne, dayTwo, h⟩ :=
      (connectionRun_two_trace Delta.passes Delta.delta Event.logPrintln cfg w org key count
        b0 b1 rest logPrintln_alertText (fun _ => rfl)).2 out hout
    exact ⟨_, _, orgName, scType, scName, dayOne, dayTwo, h, rfl,
      ge_zero_of_gt_abs _ _ hg, specVerb_increased _, specVerb_decreased _⟩
  · intro hout
    rw [trends_processConnection_eq] at hout
    obtain ⟨hg, orgName, scType, scName, dayOne, dayTwo, h⟩ :=
      (connectionRun_two_trace Trends.passes Trends.delta (Trends.deliver cfg) cfg w org key
        count b0 b1 rest (deliver_alertText cfg) (deliver_lookupKey cfg)).2 out hout
    exact ⟨_, _, orgName, scType, scName, dayOne, dayTwo, h, rfl,
      ge_zero_of_gt_abs _ _ hg, specVerb_increased _, specVerb_decreased _⟩

theorem delta_run_100_120 :
    Delta.processConnection (plainConfig threshold005)
      (worldOf (some acmeAws) (resultOf [])) acme (conn1Days d100 d120) =
      ⟨[Event.getServiceConnection "conn-1", Event.logPrintln "Daily usage increased by 20.0% for 'Acme' in Aws (Acme AWS) between 2024-01-14 and 2024-01-15, from $100.00 to $120.00"], Status.done⟩ := by
  decide!

theorem trends_run_100_120 :
    Trends.processConnection (plainConfig threshold005)
      (worldOf (some acmeAws) (resultOf [])) acme (conn1Days d100 d120) =
      ⟨[Event.getServiceConnection "conn-1", Event.logPrintln "Daily usage increased by 20.0% for 'Acme' in Aws (Acme AWS) between 2024-01-14 and 2024-01-15, from $100.00 to $120.00"], Status.done⟩ := by
  decide!

theorem alert_magnitude_and_direction_witness :
    "Daily usage increased by 20.0% for 'Acme' in Aws (Acme AWS) between 2024-01-14 and 2024-01-15, from $100.00 to $120.00" ∈
      (Delta.processConnection (plainConfig threshold005)
        (worldOf (some acmeAws) (resultOf [])) acme (conn1Days d100 d120)).alerts ∧
    ∃ verb magnitude orgName scType scName dayOne dayTwo,
      "Daily usage increased by 20.0% for 'Acme' in Aws (Acme AWS) between 2024-01-14 and 2024-01-15, from $100.00 to $120.00" =
        specAlertLine verb (fmtFloat 1 magnitude) orgName scType scName dayOne dayTwo
          (cpSprintf2 d100.val) (cpSprintf2 d120.val) ∧
      magnitude = Delta.delta d100 d120 ∧
      F64.ge magnitude (F64.fin 0) = true ∧
      (verb = "increased" ↔ (0 : ℚ) ≤ d120.val - d100.val) ∧
      (verb = "decreased" ↔ d120.val - d100.val < 0) := by
  have hmem : "Daily usage increased by 20.0% for 'Acme' in Aws (Acme AWS) between 2024-01-14 and 2024-01-15, from $100.00 to $120.00" ∈
      (Delta.processConnection (plainConfig threshold005)
        (worldOf (some acmeAws) (resultOf [])) acme (conn1Days d100 d120)).alerts := by
    rw [delta_run_100_120]
    simp [Run.alerts, Event.alertText]
  exact ⟨hmem, (alert_magnitude_and_direction (plainConfig threshold005)
    (worldOf (some acmeAws) (resultOf [])) acme "conn-1" 2
    (dailyBucket "20240114T000000.000Z" d100) (dailyBucket "20240115T000000.000Z" d120) []
    _).1 hmem⟩

/-! ### Settings and sinks -/

theorem nonEmpty_eq (cfg : Config) (key : String) :
    cfg.nonEmpty key = (cfg.IsSet key && cfg.GetString key != "") := by
  unfold Config.nonEmpty Config.IsSet Config.GetString
  cases cfg.value key <;> simp

theorem slackIncomplete_eq (cfg : Config) :
    Trends.slackIncomplete cfg = (cfg.nonEmpty "SLACK_TOKEN" != cfg.nonEmpty "SLACK_CHANNEL") := by
  rw [nonEmpty_eq, nonEmpty_eq]
  unfold Trends.slackIncomplete
  generalize cfg.IsSet "SLACK_TOKEN" = a
  generalize cfg.IsSet "SLACK_CHANNEL" = c
  simp only [bne]
  generalize (cfg.GetString "SLACK_TOKEN" == "") = b
  generalize (cfg.GetString "SLACK_CHANNEL" == "") = d
  cases a <;> cases b <;> cases c <;> cases d <;> rfl

theorem slackAPI_eq (cfg : Config) :
    Trends.slackAPI cfg = (cfg.nonEmpty "SLACK_TOKEN" && cfg.nonEmpty "SLACK_CHANNEL") := by
  rw [nonEmpty_eq, nonEmpty_eq]
  unfold Trends.slackAPI
  simp only [Bool.and_assoc]

theorem missingRequired_eq (cfg : Config) :
    missingRequired cfg =
      !(cfg.nonEmpty "CMC_ENDPOINT" && cfg.nonEmpty "CMC_KEY" &&
        cfg.nonEmpty "ELASTIC_CLOUDID" && cfg.nonEmpty "ELASTIC_KEY") := by
  rw [nonEmpty_eq, nonEmpty_eq, nonEmpty_eq, nonEmpty_eq]
  unfold missingRequired
  simp only [bne]
  generalize cfg.IsSet "CMC_ENDPOINT" = a1
  generalize cfg.IsSet "CMC_KEY" = a2
  generalize cfg.IsSet "ELASTIC_CLOUDID" = a3
  generalize cfg.IsSet "ELASTIC_KEY" = a4
  generalize (cfg.GetString "CMC_ENDPOINT" == "") = b1
  generalize (cfg.GetString "CMC_KEY" == "") = b2
  generalize (cfg.GetString "ELASTIC_CLOUDID" == "") = b3
  generalize (cfg.GetString "ELASTIC_KEY" == "") = b4
  cases a1 <;> cases a2 <;> cases a3 <;> cases a4 <;> cases b1 <;> cases b2 <;>
    cases b3 <;> cases b4 <;> rfl

/-- The events of the body of the connection loop are a lookup and, after it,
what the sink was handed. -/
theorem connectionRun_event (test : Float64 → Float64 → F64 → Bool)
    (pct : Float64 → Float64 → F64)
    (sink : String → Event) (cfg : Config) (w : World) (org : Organization)
    (scAgg : ConnectionBucket) (e : Event)
    (h : e ∈ (connectionRun test pct sink cfg w org scAgg).events) :
    e = Event.getServiceConnection scAgg.Key ∨ ∃ output, e = sink output := by
  rcases connectionRun_cases test pct sink cfg w org scAgg with
    ⟨_, hr⟩ | ⟨_, _, hr⟩ | ⟨_, _, _, _, _, _, _, _, _, hr⟩ |
    ⟨_, _, _, _, _, output, _, _, _, hr⟩
  · rw [hr] at h
    simp at h
  · rw [hr] at h
    left
    simpa using h
  · rw [hr] at h
    left
    simpa using h
  · rw [hr] at h
    rcases List.mem_cons.mp h with h | h
    · exact Or.inl h
    · right
      exact ⟨output, by simpa using h⟩

/-- Every alert of a run of cloudmc_usage_trends went through `deliver`. -/
theorem trends_main_alert (cfg : Config) (w : World) (e : Event)
    (h : e ∈ (Trends.main cfg w).events) (ha : e.isAlert = true) :
    ∃ output, e = Trends.deliver cfg output := by
  have hconn : ∀ org scAgg, e ∈ (Trends.processConnection cfg w org scAgg).events →
      ∃ output, e = Trends.deliver cfg output := by
    intro org scAgg he
    rcases connectionRun_event _ _ _ cfg w org scAgg e he with h1 | h2
    · rw [h1] at ha
      cases ha
    · exact h2
  have hres : ∀ org result, e ∈ (Trends.processResult cfg w org result).events →
      ∃ output, e = Trends.deliver cfg output := by
    intro org result he
    obtain ⟨orgAgg, _, he⟩ := forEach_events_mem _ _ e he
    obtain ⟨scAgg, _, he⟩ := forEach_events_mem _ _ e he
    exact hconn org scAgg he
  have horg : ∀ org, e ∈ (Trends.processOrganization cfg w org).events →
      ∃ output, e = Trends.deliver cfg output := by
    intro org he
    unfold Trends.processOrganization at he
    cases hid : org.Id with
    | none => simp [hid] at he
    | some orgId =>
      simp only [hid] at he
      cases hsr : w.search orgId with
      | searchError =>
        simp only [hsr, List.mem_singleton] at he
        rw [he] at ha
        cases ha
      | decodeError =>
        simp only [hsr, List.mem_singleton] at he
        rw [he] at ha
        cases ha
      | ok result =>
        simp only [hsr] at he
        rcases seq_events_mem _ _ e he with h1 | h2
        · simp only [List.mem_singleton] at h1
          rw [h1] at ha
          cases ha
        · exact hres org result h2
  unfold Trends.main at h
  split at h
  · simp at h
  · split at h
    · simp at h
    · cases ho : w.getOrganizations with
      | none =>
        simp only [ho, List.mem_singleton] at h
        rw [h] at ha
        cases ha
      | some orgs =>
        simp only [ho] at h
        rcases seq_events_mem _ _ e h with h1 | h2
        · simp only [List.mem_singleton] at h1
          rw [h1] at ha
          cases ha
        · obtain ⟨org, _, he⟩ := forEach_events_mem _ _ e h2
          exact horg org he

/-- C7: in cloudmc_usage_trends, when the four required settings are set to
non-empty values, the run ends at startup with the configuration error, before
any event (no organization fetched, no query run), exactly when one of
`SLACK_TOKEN` and `SLACK_CHANNEL` is set to a non-empty value and the other is
not; when both are, every alert of the run is posted to the configured Slack
channel; when neither is, every alert of the run is a log line. -/
theorem slack_settings (cfg : Config) (w : World)
    (h1 : cfg.nonEmpty "CMC_ENDPOINT" = true) (h2 : cfg.nonEmpty "CMC_KEY" = true)
    (h3 : cfg.nonEmpty "ELASTIC_CLOUDID" = true) (h4 : cfg.nonEmpty "ELASTIC_KEY" = true) :
    (Trends.main cfg w = ⟨[], Status.fatal missingConfigMessage⟩ ↔
      (cfg.nonEmpty "SLACK_TOKEN" = true ∧ cfg.nonEmpty "SLACK_CHANNEL" = false) ∨
      (cfg.nonEmpty "SLACK_TOKEN" = false ∧ cfg.nonEmpty "SLACK_CHANNEL" = true)) ∧
    (cfg.nonEmpty "SLACK_TOKEN" = true → cfg.nonEmpty "SLACK_CHANNEL" = true →
      ∀ e ∈ (Trends.main cfg w).events, e.isAlert = true →
        ∃ output, e = Event.postMessage (cfg.GetString "SLACK_CHANNEL") output) ∧
    (cfg.nonEmpty "SLACK_TOKEN" = false → cfg.nonEmpty "SLACK_CHANNEL" = false →
      ∀ e ∈ (Trends.main cfg w).events, e.isAlert = true →
        ∃ output, e = Event.logPrintln output) := by
  have hreq : missingRequired cfg = false := by
    rw [missingRequired_eq, h1, h2, h3, h4]
    rfl
  refine ⟨?_, ?_, ?_⟩
  · unfold Trends.main
    rw [hreq, slackIncomplete_eq, Bool.false_or]
    cases ht : cfg.nonEmpty "SLACK_TOKEN" <;> cases hc : cfg.nonEmpty "SLACK_CHANNEL"
    · simp only [bne_self_eq_false, Bool.false_eq_true, if_false]
      constructor
      · intro h
        exfalso
        split at h
        · injection h with _ hs
          injection hs with hs
          revert hs
          decide
        · cases hw : w.getOrganizations with
          | none => simp [hw] at h
          | some orgs =>
            simp only [hw, Run.seq] at h
            injection h with he _
            simp at he
      · intro h
        rcases h with ⟨h, _⟩ | ⟨_, h⟩ <;> cases h
    · simp
    · simp
    · simp only [bne_self_eq_false, Bool.false_eq_true, if_false]
      constructor
      · intro h
        exfalso
        split at h
        · injection h with _ hs
          injection hs with hs
          revert hs
          decide
        · cases hw : w.getOrganizations with
          | none => simp [hw] at h
          | some orgs =>
            simp only [hw, Run.seq] at h
            injection h with he _
            simp at he
      · intro h
        rcases h with ⟨_, h⟩ | ⟨h, _⟩ <;> cases h
  · intro ht hc e he ha
    obtain ⟨output, rfl⟩ := trends_main_alert cfg w e he ha
    refine ⟨output, ?_⟩
    unfold Trends.deliver
    rw [slackAPI_eq, ht, hc]
    rfl
  · intro ht hc e he ha
    obtain ⟨output, rfl⟩ := trends_main_alert cfg w e he ha
    refine ⟨output, ?_⟩
    unfold Trends.deliver
    rw [slackAPI_eq, ht, hc]
    rfl

theorem slack_settings_witness :
    (configOf none (some "alerts") (threshold005)).nonEmpty "CMC_ENDPOINT" = true ∧
    (configOf none (some "alerts") (threshold005)).nonEmpty "SLACK_TOKEN" = false ∧
    (configOf none (some "alerts") (threshold005)).nonEmpty "SLACK_CHANNEL" = true ∧
    Trends.main (configOf none (some "alerts") (threshold005))
      (worldOf (some acmeAws) (resultOf [conn1Days d100 d120])) =
      ⟨[], Status.fatal missingConfigMessage⟩ :=
  ⟨by decide, by decide, by decide,
    (slack_settings (configOf none (some "alerts") (threshold005))
      (worldOf (some acmeAws) (resultOf [conn1Days d100 d120]))
      (by decide) (by decide) (by decide) (by decide)).1.mpr
      (Or.inr ⟨by decide, by decide⟩)⟩

/-! ### Lookups and alerts of a result -/

theorem delta_processResult_eq (cfg : Config) (w : World) (org : Organization)
    (result : QueryResult) :
    Delta.processResult cfg w org result =
      resultRun (connectionRun Delta.passes Delta.delta Event.logPrintln cfg w org) result := rfl

theorem trends_processResult_eq (cfg : Config) (w : World) (org : Organization)
    (result : QueryResult) :
    Trends.processResult cfg w org result =
      resultRun (connectionRun Trends.passes Trends.delta (Trends.deliver cfg) cfg w org)
        result := rfl

theorem resultRun_event_mem (body : ConnectionBucket → Run) (result : QueryResult) (e : Event)
    (h : e ∈ (resultRun body result).events) :
    ∃ scAgg ∈ connections result, e ∈ (body scAgg).events := by
  obtain ⟨orgAgg, ho, he⟩ := forEach_events_mem _ _ e h
  obtain ⟨scAgg, hsc, he⟩ := forEach_events_mem _ _ e he
  exact ⟨scAgg, List.mem_flatMap.mpr ⟨orgAgg, ho, hsc⟩, he⟩

theorem resultRun_done (body : ConnectionBucket → Run) (result : QueryResult)
    (h : (resultRun body result).status = Status.done) :
    (∀ scAgg ∈ connections result, (body scAgg).status = Status.done) ∧
      (resultRun body result).events =
        (connections result).flatMap fun scAgg => (body scAgg).events := by
  obtain ⟨h1, h2⟩ := forEach_done _ _ h
  constructor
  · intro scAgg hsc
    obtain ⟨orgAgg, ho, hsc⟩ := List.mem_flatMap.mp hsc
    exact (forEach_done _ _ (h1 orgAgg ho)).1 scAgg hsc
  · unfold resultRun
    rw [h2]
    unfold connections
    generalize result.Buckets = bs at h1
    induction bs with
    | nil => rfl
    | cons b bs ih =>
      simp only [List.flatMap_cons, List.flatMap_append]
      rw [(forEach_done _ _ (h1 b (by simp))).2, ih (fun o ho => h1 o (by simp [ho]))]

/-- The lookups and the number of alerts of a sequence of connections that all
end normally. -/
theorem trace_of_done (body : ConnectionBucket → Run) (gate : ConnectionBucket → Bool)
    (hlook : ∀ sc, (body sc).lookups = if gate sc then [sc.Key] else [])
    (hal : ∀ sc, (body sc).status = Status.done →
      (body sc).alerts.length = if gate sc then 1 else 0)
    (cs : List ConnectionBucket) (hdone : ∀ sc ∈ cs, (body sc).status = Status.done) :
    (cs.flatMap fun sc => (body sc).events).filterMap Event.lookupKey =
        (cs.filter gate).map (fun sc => sc.Key) ∧
    ((cs.flatMap fun sc => (body sc).events).filterMap Event.alertText).length =
        (cs.filter gate).length := by
  induction cs with
  | nil => simp
  | cons c cs ih =>
    obtain ⟨ih1, ih2⟩ := ih (fun sc hsc => hdone sc (by simp [hsc]))
    have hl := hlook c
    have ha := hal c (hdone c (by simp))
    unfold Run.lookups at hl
    unfold Run.alerts at ha
    simp only [List.flatMap_cons, List.filterMap_append, List.length_append, ih1, ih2, hl, ha]
    cases hg : gate c <;> simp [List.filter_cons, hg]
    omega

/-- The lookups and alerts of the loops over a result, for a body of the
connection loop. -/
theorem resultRun_lookups (test : Float64 → Float64 → F64 → Bool)
    (pct : Float64 → Float64 → F64)
    (sink : String → Event) (cfg : Config) (w : World) (org : Organization)
    (result : QueryResult)
    (hs : ∀ o, (sink o).alertText = some o) (hk : ∀ o, (sink o).lookupKey = none) :
    (∀ key ∈ (resultRun (connectionRun test pct sink cfg w org) result).lookups,
      ∃ scAgg ∈ connections result, gateOf test cfg scAgg = true ∧ scAgg.Key = key) ∧
    ((resultRun (connectionRun test pct sink cfg w org) result).status = Status.done →
      (resultRun (connectionRun test pct sink cfg w org) result).lookups =
        ((connections result).filter (gateOf test cfg)).map (fun scAgg => scAgg.Key) ∧
      (resultRun (connectionRun test pct sink cfg w org) result).alerts.length =
        (resultRun (connectionRun test pct sink cfg w org) result).lookups.length) := by
  have hlook : ∀ sc, (connectionRun test pct sink cfg w org sc).lookups =
      if gateOf test cfg sc then [sc.Key] else [] :=
    fun sc => (connectionRun_trace test pct sink cfg w org sc hs hk).1
  constructor
  · intro key hkey
    unfold Run.lookups at hkey
    obtain ⟨e, he, hek⟩ := List.mem_filterMap.mp hkey
    obtain ⟨scAgg, hsc, he⟩ := resultRun_event_mem _ result e he
    have hmem : key ∈ (connectionRun test pct sink cfg w org scAgg).lookups :=
      List.mem_filterMap.mpr ⟨e, he, hek⟩
    rw [hlook scAgg] at hmem
    cases hg : gateOf test cfg scAgg with
    | false => simp [hg] at hmem
    | true =>
      simp only [hg, if_true, List.mem_singleton] at hmem
      exact ⟨scAgg, hsc, hg, hmem.symm⟩
  · intro hdone
    obtain ⟨h1, h2⟩ := resultRun_done _ result hdone
    have hal : ∀ sc, (connectionRun test pct sink cfg w org sc).status = Status.done →
        (connectionRun test pct sink cfg w org sc).alerts.length =
          if gateOf test cfg sc then 1 else 0 := by
      intro sc hd
      cases hg : gateOf test cfg sc with
      | false =>
        rw [connectionRun_gate_false test pct sink cfg w org sc hg]
        rfl
      | true =>
        simpa using (connectionRun_trace test pct sink cfg w org sc hs hk).2.2 hd hg
    obtain ⟨t1, t2⟩ := trace_of_done _ (gateOf test cfg) hlook hal (connections result) h1
    unfold Run.lookups Run.alerts
    rw [h2, t1, t2, List.length_map]
    exact ⟨rfl, rfl⟩

/-- C9 (amended): in both programs the service-connection lookup is made only
for connections that pass the threshold gate.  In every run over an
aggregation result each lookup uses the key of a connection of the result that
passes the gate, and a connection that fails the gate (in particular one with
fewer than two daily buckets) causes no lookup and no output at all.  When the
run over the result ends normally (every lookup succeeds and every line is
rendered), the lookups are the keys of the passing connections, in order and
once each, and the number of alerts equals the number of lookups. -/
theorem lookup_only_after_gate (cfg : Config) (w : World) (org : Organization)
    (result : QueryResult) :
    ((∀ scAgg, gateOf Delta.passes cfg scAgg = false →
        Delta.processConnection cfg w org scAgg = ⟨[], Status.done⟩) ∧
      (∀ scAgg, scAgg.Daily.length ≤ 1 → gateOf Delta.passes cfg scAgg = false) ∧
      (∀ key ∈ (Delta.processResult cfg w org result).lookups,
        ∃ scAgg ∈ connections result, gateOf Delta.passes cfg scAgg = true ∧ scAgg.Key = key) ∧
      ((Delta.processResult cfg w org result).status = Status.done →
        (Delta.processResult cfg w org result).lookups =
          ((connections result).filter (gateOf Delta.passes cfg)).map (fun scAgg => scAgg.Key) ∧
        (Delta.processResult cfg w org result).alerts.length =
          (Delta.processResult cfg w org result).lookups.length)) ∧
    ((∀ scAgg, gateOf Trends.passes cfg scAgg = false →
        Trends.processConnection cfg w org scAgg = ⟨[], Status.done⟩) ∧
      (∀ scAgg, scAgg.Daily.length ≤ 1 → gateOf Trends.passes cfg scAgg = false) ∧
      (∀ key ∈ (Trends.processResult cfg w org result).lookups,
        ∃ scAgg ∈ connections result, gateOf Trends.passes cfg scAgg = true ∧ scAgg.Key = key) ∧
      ((Trends.processResult cfg w org result).status = Status.done →
        (Trends.processResult cfg w org result).lookups =
          ((connections result).filter (gateOf Trends.passes cfg)).map (fun scAgg => scAgg.Key) ∧
        (Trends.processResult cfg w org result).alerts.length =
          (Trends.processResult cfg w org result).lookups.length)) := by
  obtain ⟨d1, d2⟩ := resultRun_lookups Delta.passes Delta.delta Event.logPrintln cfg w org result
    logPrintln_alertText (fun _ => rfl)
  obtain ⟨t1, t2⟩ := resultRun_lookups Trends.passes Trends.delta (Trends.deliver cfg) cfg w org
    result (deliver_alertText cfg) (deliver_lookupKey cfg)
  exact ⟨⟨fun scAgg h => connectionRun_gate_false _ _ _ cfg w org scAgg h,
      fun scAgg h => gateOf_short _ cfg scAgg h, d1, d2⟩,
    ⟨fun scAgg h => connectionRun_gate_false _ _ _ cfg w org scAgg h,
      fun scAgg h => gateOf_short _ cfg scAgg h, t1, t2⟩⟩

theorem lookup_only_after_gate_witness :
    (Delta.processResult (plainConfig threshold005) (worldOf (some acmeAws) (resultOf []))
      acme (resultOf [conn1Days d100 d120,
        ⟨"conn-2", 1, [dailyBucket "20240115T000000.000Z" d7]⟩])).status = Status.done ∧
    (Delta.processResult (plainConfig threshold005) (worldOf (some acmeAws) (resultOf []))
      acme (resultOf [conn1Days d100 d120,
        ⟨"conn-2", 1, [dailyBucket "20240115T000000.000Z" d7]⟩])).lookups = ["conn-1"] ∧
    (Delta.processResult (plainConfig threshold005) (worldOf (some acmeAws) (resultOf []))
      acme (resultOf [conn1Days d100 d120,
        ⟨"conn-2", 1, [dailyBucket "20240115T000000.000Z" d7]⟩])).alerts.length =
      (Delta.processResult (plainConfig threshold005) (worldOf (some acmeAws) (resultOf []))
        acme (resultOf [conn1Days d100 d120,
          ⟨"conn-2", 1, [dailyBucket "20240115T000000.000Z" d7]⟩])).lookups.length :=
  ⟨by decide!, by decide!,
    ((lookup_only_after_gate (plainConfig threshold005)
      (worldOf (some acmeAws) (resultOf [])) acme
      (resultOf [conn1Days d100 d120,
        ⟨"conn-2", 1, [dailyBucket "20240115T000000.000Z" d7]⟩])).1.2.2.2
      (by decide!)).2⟩

/-- Counterexample to C9 as stated, in cloudmc_usage_delta, with values 100 and
120 at threshold 0.05 and a lookup that succeeds.  When `key_as_string` has
fewer than 8 bytes the slice `[:8]` panics after the lookup, and when the
service connection has no type the dereference panics after the lookup: one
lookup was made and no alert is emitted. -/
theorem lookup_without_alert :
    Delta.processResult (plainConfig threshold005) (worldOf (some acmeAws) (resultOf []))
      acme (resultOf [conn1 [dailyBucket "" d100, dailyBucket "" d120]]) =
      ⟨[Event.getServiceConnection "conn-1"], Status.panic "slice bounds out of range"⟩ ∧
    Delta.processResult (plainConfig threshold005)
      (worldOf (some ⟨some "Acme AWS", none⟩) (resultOf [])) acme
      (resultOf [conn1Days d100 d120]) =
      ⟨[Event.getServiceConnection "conn-1"], Status.panic "nil pointer dereference"⟩ ∧
    (⟨[Event.getServiceConnection "conn-1"], Status.panic "slice bounds out of range"⟩ :
      Run).lookups.length = 1 ∧
    (⟨[Event.getServiceConnection "conn-1"], Status.panic "slice bounds out of range"⟩ :
      Run).alerts.length = 0 := by
  refine ⟨by decide!, by decide!, rfl, rfl⟩

/-! ### A zero denominator -/

theorem abs_div_den_zero (a b : Float64) (y : ℚ) (h : y = 0) :
    F64.abs (F64.div (F64.sub b.val a.val) y) =
      if b.val - a.val = 0 then F64.nan else F64.posInf := by
  subst h
  rcases sub_cases a b with ⟨h, h1 | ⟨d, h1, hd⟩⟩ | ⟨h, h1⟩ | ⟨h, h1 | ⟨d, h1, hd⟩⟩
  · rw [h1, if_neg (by linarith)]
    simp [F64.div, F64.abs]
  · rw [h1, if_neg (by linarith)]
    simp [F64.div, F64.abs, ne_of_lt hd, not_lt.mpr (le_of_lt hd)]
  · rw [h1, if_pos (by linarith)]
    simp [F64.div, F64.abs]
  · rw [h1, if_neg (by linarith)]
    simp [F64.div, F64.abs]
  · rw [h1, if_neg (by linarith)]
    simp [F64.div, F64.abs, ne_of_gt hd, hd]

theorem specMagnitude_den_zero (a b : Float64) (den : ℚ) (h : den = 0)
    (hd : b.val - a.val ≠ 0) :
    specMagnitude a.val b.val den = F64.posInf := by
  unfold specMagnitude
  rw [abs_div_den_zero _ _ _ h, if_neg hd]
  norm_num [F64.scale]

theorem gate_den_zero (a b : Float64) (den : ℚ) (t : F64) (h : den = 0) :
    F64.gt (F64.abs (F64.div (F64.sub b.val a.val) den)) t =
      if b.val - a.val = 0 then false else F64.gt F64.posInf t := by
  rw [abs_div_den_zero _ _ _ h]
  by_cases hd : b.val - a.val = 0
  · rw [if_pos hd, if_pos hd, gt_nan_left]
  · rw [if_neg hd, if_neg hd]

/-- The body of the connection loop on a connection with at least two daily
buckets whose denominator is zero. -/
theorem connectionRun_den_zero (test : Float64 → Float64 → F64 → Bool)
    (pct : Float64 → Float64 → F64)
    (sink : String → Event) (cfg : Config) (w : World) (org : Organization)
    (key : String) (count : Int) (b0 b1 : DailyBucket) (rest : List DailyBucket) (den : ℚ)
    (hs : ∀ o, (sink o).alertText = some o) (hk : ∀ o, (sink o).lookupKey = none)
    (htest : test b0.TotalUsage b1.TotalUsage cfg.THRESHOLD =
      F64.gt (F64.abs (F64.div (F64.sub b1.TotalUsage.val b0.TotalUsage.val) den))
        cfg.THRESHOLD)
    (hpct : pct b0.TotalUsage b1.TotalUsage =
      specMagnitude b0.TotalUsage.val b1.TotalUsage.val den)
    (hden : den = 0) :
    (b1.TotalUsage.val - b0.TotalUsage.val = 0 →
      connectionRun test pct sink cfg w org ⟨key, count, b0 :: b1 :: rest⟩ = ⟨[], Status.done⟩) ∧
    (b1.TotalUsage.val - b0.TotalUsage.val ≠ 0 →
      ((connectionRun test pct sink cfg w org ⟨key, count, b0 :: b1 :: rest⟩).lookups = [key] ↔
        F64.gt F64.posInf cfg.THRESHOLD = true) ∧
      (∀ τ : ℚ, cfg.THRESHOLD = F64.fin τ →
        (connectionRun test pct sink cfg w org ⟨key, count, b0 :: b1 :: rest⟩).lookups = [key]) ∧
      (∀ out ∈ (connectionRun test pct sink cfg w org ⟨key, count, b0 :: b1 :: rest⟩).alerts,
        ∃ orgName scType scName dayOne dayTwo,
          out = specAlertLine (specVerb (b1.TotalUsage.val - b0.TotalUsage.val)) "+Inf"
            orgName scType scName dayOne dayTwo
            (cpSprintf2 b0.TotalUsage.val) (cpSprintf2 b1.TotalUsage.val))) := by
  obtain ⟨t1, t2⟩ := connectionRun_two_trace test pct sink cfg w org key count b0 b1 rest hs hk
  have hgate := gate_den_zero b0.TotalUsage b1.TotalUsage den cfg.THRESHOLD hden
  constructor
  · intro hd
    apply connectionRun_gate_false
    show test b0.TotalUsage b1.TotalUsage cfg.THRESHOLD = false
    rw [htest, hgate, if_pos hd]
  · intro hd
    rw [htest, hgate, if_neg hd] at t1
    refine ⟨t1, ?_, ?_⟩
    · intro τ hτ
      rw [t1, hτ]
      rfl
    · intro out hout
      obtain ⟨_, h⟩ := t2 out hout
      rw [hpct, specMagnitude_den_zero _ _ _ hden hd] at h
      exact h

/-- C6 (amended): in both programs a zero denominator raises no division fault
and is handled by the `float64` arithmetic alone.  For a connection with at
least two daily buckets whose denominator is 0: when `diff = 0` the ratio is a
NaN, the gate fails and the connection is skipped; when `diff` is not 0 the
ratio is `+Inf`, the lookup is made exactly when `+Inf > THRESHOLD` (so for
every finite threshold), and every alert prints `+Inf%` with the verb
`increased` for a positive `diff` and `decreased` for a negative one. -/
theorem zero_denominator (cfg : Config) (w : World) (org : Organization)
    (key : String) (count : Int) (b0 b1 : DailyBucket) (rest : List DailyBucket) :
    (b0.TotalUsage.val = 0 →
      (b1.TotalUsage.val - b0.TotalUsage.val = 0 →
        Delta.processConnection cfg w org ⟨key, count, b0 :: b1 :: rest⟩ = ⟨[], Status.done⟩) ∧
      (b1.TotalUsage.val - b0.TotalUsage.val ≠ 0 →
        ((Delta.processConnection cfg w org ⟨key, count, b0 :: b1 :: rest⟩).lookups = [key] ↔
          F64.gt F64.posInf cfg.THRESHOLD = true) ∧
        (∀ τ : ℚ, cfg.THRESHOLD = F64.fin τ →
          (Delta.processConnection cfg w org ⟨key, count, b0 :: b1 :: rest⟩).lookups = [key]) ∧
        (∀ out ∈ (Delta.processConnection cfg w org ⟨key, count, b0 :: b1 :: rest⟩).alerts,
          ∃ orgName scType scName dayOne dayTwo,
            out = specAlertLine (specVerb (b1.TotalUsage.val - b0.TotalUsage.val)) "+Inf"
              orgName scType scName dayOne dayTwo
              (cpSprintf2 b0.TotalUsage.val) (cpSprintf2 b1.TotalUsage.val)))) ∧
    (specDirectionalDenominator b0.TotalUsage.val b1.TotalUsage.val = 0 →
      (b1.TotalUsage.val - b0.TotalUsage.val = 0 →
        Trends.processConnection cfg w org ⟨key, count, b0 :: b1 :: rest⟩ = ⟨[], Status.done⟩) ∧
      (b1.TotalUsage.val - b0.TotalUsage.val ≠ 0 →
        ((Trends.processConnection cfg w org ⟨key, count, b0 :: b1 :: rest⟩).lookups = [key] ↔
          F64.gt F64.posInf cfg.THRESHOLD = true) ∧
        (∀ τ : ℚ, cfg.THRESHOLD = F64.fin τ →
          (Trends.processConnection cfg w org ⟨key, count, b0 :: b1 :: rest⟩).lookups = [key]) ∧
        (∀ out ∈ (Trends.processConnection cfg w org ⟨key, count, b0 :: b1 :: rest⟩).alerts,
          ∃ orgName scType scName dayOne dayTwo,
            out = specAlertLine (specVerb (b1.TotalUsage.val - b0.TotalUsage.val)) "+Inf"
              orgName scType scName dayOne dayTwo
              (cpSprintf2 b0.TotalUsage.val) (cpSprintf2 b1.TotalUsage.val)))) ∧
    (specVerb (b1.TotalUsage.val - b0.TotalUsage.val) = "increased" ↔
      0 ≤ b1.TotalUsage.val - b0.TotalUsage.val) ∧
    (specVerb (b1.TotalUsage.val - b0.TotalUsage.val) = "decreased" ↔
      b1.TotalUsage.val - b0.TotalUsage.val < 0) := by
  refine ⟨?_, ?_, specVerb_increased _, specVerb_decreased _⟩
  · intro h
    simp only [delta_processConnection_eq]
    exact connectionRun_den_zero Delta.passes Delta.delta Event.logPrintln cfg w org key count
      b0 b1 rest b0.TotalUsage.val logPrintln_alertText (fun _ => rfl)
      (delta_passes_eq _ _ _) (delta_delta_eq _ _) h
  · intro h
    simp only [trends_processConnection_eq]
    exact connectionRun_den_zero Trends.passes Trends.delta (Trends.deliver cfg) cfg w org key
      count b0 b1 rest (specDirectionalDenominator b0.TotalUsage.val b1.TotalUsage.val)
      (deliver_alertText cfg) (deliver_lookupKey cfg)
      (trends_passes_eq _ _ _) (trends_delta_eq _ _) h

/-- Counterexample to C6 as stated: in cloudmc_usage_trends a drop from 100 to
0 selects the denominator 0, and the connection is neither skipped nor
reported as an increase: the run looks the connection up and logs a
`decreased by +Inf%` alert. -/
theorem zero_denominator_decrease_alert :
    (Trends.denominator d100 d0).val = 0 ∧
    Trends.processConnection (plainConfig threshold005)
      (worldOf (some acmeAws) (resultOf [])) acme (conn1Days d100 d0) =
      ⟨[Event.getServiceConnection "conn-1", Event.logPrintln "Daily usage decreased by +Inf% for 'Acme' in Aws (Acme AWS) between 2024-01-14 and 2024-01-15, from $100.00 to $0.00"], Status.done⟩ :=
  ⟨by decide!, by decide!⟩

theorem zero_denominator_witness :
    specDirectionalDenominator d100.val d0.val = 0 ∧ d0.val - d100.val ≠ 0 ∧
    (Trends.processConnection (plainConfig threshold005)
      (worldOf (some acmeAws) (resultOf [])) acme (conn1Days d100 d0)).lookups = ["conn-1"] :=
  ⟨by decide!, by decide!,
    ((((zero_denominator (plainConfig threshold005)
      (worldOf (some acmeAws) (resultOf [])) acme "conn-1" 2
      (dailyBucket "20240114T000000.000Z" d100) (dailyBucket "20240115T000000.000Z" d0) []).2.1
      (by decide!)).2
      (by decide!)).2.1) (3602879701896397 / 72057594037927936) (by decide!)⟩

/-! ### The threshold gate -/

/-- On a connection with at least two daily buckets: nothing happens when the
test fails, and a run that ends normally has an alert exactly when it passes. -/
theorem connectionRun_two_gate (test : Float64 → Float64 → F64 → Bool)
    (pct : Float64 → Float64 → F64)
    (sink : String → Event) (cfg : Config) (w : World) (org : Organization)
    (key : String) (count : Int) (b0 b1 : DailyBucket) (rest : List DailyBucket)
    (hs : ∀ o, (sink o).alertText = some o) (hk : ∀ o, (sink o).lookupKey = none) :
    (test b0.TotalUsage b1.TotalUsage cfg.THRESHOLD = false →
      connectionRun test pct sink cfg w org ⟨key, count, b0 :: b1 :: rest⟩ = ⟨[], Status.done⟩) ∧
    ((connectionRun test pct sink cfg w org ⟨key, count, b0 :: b1 :: rest⟩).alerts ≠ [] →
      test b0.TotalUsage b1.TotalUsage cfg.THRESHOLD = true) ∧
    ((connectionRun test pct sink cfg w org ⟨key, count, b0 :: b1 :: rest⟩).status = Status.done →
      test b0.TotalUsage b1.TotalUsage cfg.THRESHOLD = true →
      (connectionRun test pct sink cfg w org ⟨key, count, b0 :: b1 :: rest⟩).alerts ≠ []) := by
  obtain ⟨_, h2, h3⟩ := connectionRun_trace test pct sink cfg w org
    ⟨key, count, b0 :: b1 :: rest⟩ hs hk
  refine ⟨?_, ?_, ?_⟩
  · intro hf
    exact connectionRun_gate_false test pct sink cfg w org _ hf
  · intro hne
    obtain ⟨out, hout⟩ := List.exists_mem_of_ne_nil _ hne
    exact (h2 out hout).2.2.1
  · intro hdone ht
    have hlen := h3 hdone ht
    intro hnil
    rw [hnil] at hlen
    cases hlen

/-- The gate of a connection with at least two daily buckets, for a test that
compares the ratio `|diff / den|` with the threshold. -/
theorem connectionRun_ratio_gate (test : Float64 → Float64 → F64 → Bool)
    (pct : Float64 → Float64 → F64)
    (sink : String → Event) (cfg : Config) (w : World) (org : Organization)
    (key : String) (count : Int) (b0 b1 : DailyBucket) (rest : List DailyBucket) (den : ℚ)
    (hs : ∀ o, (sink o).alertText = some o) (hk : ∀ o, (sink o).lookupKey = none)
    (htest : test b0.TotalUsage b1.TotalUsage cfg.THRESHOLD =
      F64.gt (F64.abs (F64.div (F64.sub b1.TotalUsage.val b0.TotalUsage.val) den))
        cfg.THRESHOLD)
    (hpct : pct b0.TotalUsage b1.TotalUsage =
      F64.scale (F64.abs (F64.div (F64.sub b1.TotalUsage.val b0.TotalUsage.val) den)) 100) :
    ((connectionRun test pct sink cfg w org ⟨key, count, b0 :: b1 :: rest⟩).lookups = [key] ↔
      F64.gt (F64.abs (F64.div (F64.sub b1.TotalUsage.val b0.TotalUsage.val) den))
        cfg.THRESHOLD = true) ∧
    (F64.gt (F64.abs (F64.div (F64.sub b1.TotalUsage.val b0.TotalUsage.val) den))
        cfg.THRESHOLD = false →
      connectionRun test pct sink cfg w org ⟨key, count, b0 :: b1 :: rest⟩ = ⟨[], Status.done⟩) ∧
    ((connectionRun test pct sink cfg w org ⟨key, count, b0 :: b1 :: rest⟩).alerts ≠ [] →
      F64.gt (F64.abs (F64.div (F64.sub b1.TotalUsage.val b0.TotalUsage.val) den))
        cfg.THRESHOLD = true) ∧
    ((connectionRun test pct sink cfg w org ⟨key, count, b0 :: b1 :: rest⟩).status = Status.done →
      ((connectionRun test pct sink cfg w org ⟨key, count, b0 :: b1 :: rest⟩).alerts ≠ [] ↔
        F64.gt (F64.abs (F64.div (F64.sub b1.TotalUsage.val b0.TotalUsage.val) den))
          cfg.THRESHOLD = true)) ∧
    (∀ out ∈ (connectionRun test pct sink cfg w org ⟨key, count, b0 :: b1 :: rest⟩).alerts,
      ∃ orgName scType scName dayOne dayTwo,
        out = specAlertLine (specVerb (b1.TotalUsage.val - b0.TotalUsage.val))
          (fmtFloat 1 (F64.scale (F64.abs (F64.div
            (F64.sub b1.TotalUsage.val b0.TotalUsage.val) den)) 100))
          orgName scType scName dayOne dayTwo
          (cpSprintf2 b0.TotalUsage.val) (cpSprintf2 b1.TotalUsage.val)) ∧
    (cfg.THRESHOLD = F64.abs (F64.div (F64.sub b1.TotalUsage.val b0.TotalUsage.val) den) →
      connectionRun test pct sink cfg w org ⟨key, count, b0 :: b1 :: rest⟩ = ⟨[], Status.done⟩) := by
  obtain ⟨t1, t2⟩ := connectionRun_two_trace test pct sink cfg w org key count b0 b1 rest hs hk
  obtain ⟨g1, g2, g3⟩ := connectionRun_two_gate test pct sink cfg w org key count b0 b1 rest
    hs hk
  rw [htest] at t1 t2 g1 g2 g3
  rw [hpct] at t2
  refine ⟨t1, g1, g2, fun hd => ⟨g2, g3 hd⟩, fun out hout => (t2 out hout).2, ?_⟩
  intro hτ
  apply g1
  rw [hτ]
  exact gt_irrefl _

/-- C2 (amended): in both programs, for a connection with at least two daily
buckets, with `ratio = |diff / denominator|` computed in `float64` and
`magnitude = ratio * 100` (rounded once more): the lookup is attempted exactly
when `ratio > THRESHOLD`; when that fails nothing at all happens; an alert
implies it; and when the processing of the connection ends normally (the
lookup succeeds and the line can be rendered) an alert is emitted exactly when
`ratio > THRESHOLD`, printing `magnitude`.  The comparison is strict: a ratio
equal to `THRESHOLD` gives no alert.  Values 100 and 120 pass at 0.05 and do
not pass at 0.25; values 61.40 and 64.47 do not pass at 0.05, their computed
ratio being the `float64` 0.05 itself. -/
theorem threshold_gate_strict (cfg : Config) (w : World) (org : Organization)
    (key : String) (count : Int) (b0 b1 : DailyBucket) (rest : List DailyBucket) :
    (((Delta.processConnection cfg w org ⟨key, count, b0 :: b1 :: rest⟩).lookups = [key] ↔
        F64.gt (F64.abs (F64.div (F64.sub b1.TotalUsage.val b0.TotalUsage.val)
          b0.TotalUsage.val)) cfg.THRESHOLD = true) ∧
      (F64.gt (F64.abs (F64.div (F64.sub b1.TotalUsage.val b0.TotalUsage.val)
          b0.TotalUsage.val)) cfg.THRESHOLD = false →
        Delta.processConnection cfg w org ⟨key, count, b0 :: b1 :: rest⟩ = ⟨[], Status.done⟩) ∧
      ((Delta.processConnection cfg w org ⟨key, count, b0 :: b1 :: rest⟩).alerts ≠ [] →
        F64.gt (F64.abs (F64.div (F64.sub b1.TotalUsage.val b0.TotalUsage.val)
          b0.TotalUsage.val)) cfg.THRESHOLD = true) ∧
      ((Delta.processConnection cfg w org ⟨key, count, b0 :: b1 :: rest⟩).status = Status.done →
        ((Delta.processConnection cfg w org ⟨key, count, b0 :: b1 :: rest⟩).alerts ≠ [] ↔
          F64.gt (F64.abs (F64.div (F64.sub b1.TotalUsage.val b0.TotalUsage.val)
            b0.TotalUsage.val)) cfg.THRESHOLD = true)) ∧
      (∀ out ∈ (Delta.processConnection cfg w org ⟨key, count, b0 :: b1 :: rest⟩).alerts,
        ∃ orgName scType scName dayOne dayTwo,
          out = specAlertLine (specVerb (b1.TotalUsage.val - b0.TotalUsage.val))
            (fmtFloat 1 (F64.scale (F64.abs (F64.div
              (F64.sub b1.TotalUsage.val b0.TotalUsage.val) b0.TotalUsage.val)) 100))
            orgName scType scName dayOne dayTwo
            (cpSprintf2 b0.TotalUsage.val) (cpSprintf2 b1.TotalUsage.val)) ∧
      (cfg.THRESHOLD = F64.abs (F64.div (F64.sub b1.TotalUsage.val b0.TotalUsage.val)
          b0.TotalUsage.val) →
        Delta.processConnection cfg w org ⟨key, count, b0 :: b1 :: rest⟩ = ⟨[], Status.done⟩)) ∧
    (((Trends.processConnection cfg w org ⟨key, count, b0 :: b1 :: rest⟩).lookups = [key] ↔
        F64.gt (F64.abs (F64.div (F64.sub b1.TotalUsage.val b0.TotalUsage.val)
          (specDirectionalDenominator b0.TotalUsage.val b1.TotalUsage.val)))
          cfg.THRESHOLD = true) ∧
      (F64.gt (F64.abs (F64.div (F64.sub b1.TotalUsage.val b0.TotalUsage.val)
          (specDirectionalDenominator b0.TotalUsage.val b1.TotalUsage.val)))
          cfg.THRESHOLD = false →
        Trends.processConnection cfg w org ⟨key, count, b0 :: b1 :: rest⟩ = ⟨[], Status.done⟩) ∧
      ((Trends.processConnection cfg w org ⟨key, count, b0 :: b1 :: rest⟩).alerts ≠ [] →
        F64.gt (F64.abs (F64.div (F64.sub b1.TotalUsage.val b0.TotalUsage.val)
          (specDirectionalDenominator b0.TotalUsage.val b1.TotalUsage.val)))
          cfg.THRESHOLD = true) ∧
      ((Trends.processConnection cfg w org ⟨key, count, b0 :: b1 :: rest⟩).status = Status.done →
        ((Trends.processConnection cfg w org ⟨key, count, b0 :: b1 :: rest⟩).alerts ≠ [] ↔
          F64.gt (F64.abs (F64.div (F64.sub b1.TotalUsage.val b0.TotalUsage.val)
            (specDirectionalDenominator b0.TotalUsage.val b1.TotalUsage.val)))
            cfg.THRESHOLD = true)) ∧
      (∀ out ∈ (Trends.processConnection cfg w org ⟨key, count, b0 :: b1 :: rest⟩).alerts,
        ∃ orgName scType scName dayOne dayTwo,
          out = specAlertLine (specVerb (b1.TotalUsage.val - b0.TotalUsage.val))
            (fmtFloat 1 (F64.scale (F64.abs (F64.div
              (F64.sub b1.TotalUsage.val b0.TotalUsage.val)
              (specDirectionalDenominator b0.TotalUsage.val b1.TotalUsage.val))) 100))
            orgName scType scName dayOne dayTwo
            (cpSprintf2 b0.TotalUsage.val) (cpSprintf2 b1.TotalUsage.val)) ∧
      (cfg.THRESHOLD = F64.abs (F64.div (F64.sub b1.TotalUsage.val b0.TotalUsage.val)
          (specDirectionalDenominator b0.TotalUsage.val b1.TotalUsage.val)) →
        Trends.processConnection cfg w org ⟨key, count, b0 :: b1 :: rest⟩ = ⟨[], Status.done⟩)) ∧
    Delta.passes d100 d120 threshold005 = true ∧
    Delta.passes d100 d120 threshold025 = false ∧
    Trends.passes d100 d120 threshold005 = true ∧
    Trends.passes d100 d120 threshold025 = false ∧
    F64.abs (F64.div (F64.sub d64_47.val d61_40.val) d61_40.val) = threshold005 ∧
    Delta.passes d61_40 d64_47 threshold005 = false ∧
    Trends.passes d61_40 d64_47 threshold005 = false := by
  refine ⟨?_, ?_, by decide!, by decide!, by decide!, by decide!, by decide!, by decide!,
    by decide!⟩
  · simp only [delta_processConnection_eq]
    exact connectionRun_ratio_gate Delta.passes Delta.delta Event.logPrintln cfg w org key
      count b0 b1 rest b0.TotalUsage.val logPrintln_alertText (fun _ => rfl)
      (delta_passes_eq _ _ _) rfl
  · simp only [trends_processConnection_eq]
    exact connectionRun_ratio_gate Trends.passes Trends.delta (Trends.deliver cfg) cfg w org
      key count b0 b1 rest (specDirectionalDenominator b0.TotalUsage.val b1.TotalUsage.val)
      (deliver_alertText cfg) (deliver_lookupKey cfg)
      (trends_passes_eq _ _ _) (trends_delta_eq _ _)

theorem threshold_gate_strict_witness :
    (Delta.processConnection (plainConfig threshold005)
      (worldOf (some acmeAws) (resultOf [])) acme (conn1Days d100 d120)).status = Status.done ∧
    ((Delta.processConnection (plainConfig threshold005)
      (worldOf (some acmeAws) (resultOf [])) acme (conn1Days d100 d120)).alerts ≠ [] ↔
      F64.gt (F64.abs (F64.div (F64.sub d120.val d100.val) d100.val)) threshold005 = true) ∧
    (Delta.processConnection (plainConfig threshold005)
      (worldOf (some acmeAws) (resultOf [])) acme (conn1Days d100 d120)).alerts =
      ["Daily usage increased by 20.0% for 'Acme' in Aws (Acme AWS) between 2024-01-14 and 2024-01-15, from $100.00 to $120.00"] :=
  ⟨by decide!,
    (threshold_gate_strict (plainConfig threshold005)
      (worldOf (some acmeAws) (resultOf [])) acme "conn-1" 2
      (dailyBucket "20240114T000000.000Z" d100) (dailyBucket "20240115T000000.000Z" d120)
      []).1.2.2.2.1 (by decide!),
    by decide!⟩

/-- C2, as stated, fails in two ways.  When the lookup fails: values 100 and
120 at threshold 0.05 have magnitude 20 and `magnitude / 100 > 0.05`, yet with
a failing `getServiceConnection` both programs end in `log.Fatal` after the
lookup and emit no alert.  And in `float64`: values 3 and 8 at the threshold
1.6666666666666667 (the `float64` nearest to 5/3) have the non-zero
denominator 3 and the printed magnitude 166.66666666666669, so
`magnitude / 100 > THRESHOLD` both as computed in `float64` and exactly, yet
the gate compares the ratio 1.6666666666666667 itself with the threshold and
nothing is emitted. -/
theorem threshold_gate_lookup_failure :
    (conn1Days d100 d120).Daily.length = 2 ∧
    Delta.delta d100 d120 = F64.fin 20 ∧
    F64.gt (F64.scale (Delta.delta d100 d120) (1 / 100)) threshold005 = true ∧
    Delta.processConnection (plainConfig threshold005) (worldOf none (resultOf [])) acme
      (conn1Days d100 d120) =
      ⟨[Event.getServiceConnection "conn-1"], Status.fatal "Error getting service connection: "⟩ ∧
    Trends.processConnection (plainConfig threshold005) (worldOf none (resultOf [])) acme
      (conn1Days d100 d120) =
      ⟨[Event.getServiceConnection "conn-1"], Status.fatal "Error getting service connection: "⟩ ∧
    (⟨[Event.getServiceConnection "conn-1"],
      Status.fatal "Error getting service connection: "⟩ : Run).alerts = [] ∧
    d3.val ≠ 0 ∧
    F64.round (5 / 3) = F64.fin (7505999378950827 / 4503599627370496) ∧
    Delta.delta d3 d8 = F64.fin (2932031007402667 / 17592186044416) ∧
    (7505999378950827 / 4503599627370496 : ℚ) < 2932031007402667 / 17592186044416 / 100 ∧
    F64.gt (F64.scale (Delta.delta d3 d8) (1 / 100)) (F64.round (5 / 3)) = true ∧
    Delta.processConnection (plainConfig (F64.round (5 / 3)))
      (worldOf (some acmeAws) (resultOf [])) acme (conn1Days d3 d8) = ⟨[], Status.done⟩ ∧
    Trends.processConnection (plainConfig (F64.round (5 / 3)))
      (worldOf (some acmeAws) (resultOf [])) acme (conn1Days d3 d8) = ⟨[], Status.done⟩ := by
  refine ⟨rfl, by decide!, by decide!, by decide!, by decide!, rfl, by decide!, by decide!,
    by decide!, by norm_num, by decide!, by decide!, by decide!⟩

/-! ### The shape of the alert line -/

/-- Every alert of the body of the connection loop, part by part, when the two
`key_as_string` begin with the eight digits of a date. -/
theorem connectionRun_line (test : Float64 → Float64 → F64 → Bool)
    (pct : Float64 → Float64 → F64)
    (sink : String → Event) (cfg : Config) (w : World) (org : Organization)
    (key : String) (count : Int) (b0 b1 : DailyBucket) (rest : List DailyBucket)
    (dayOne dayTwo : Date)
    (hs : ∀ o, (sink o).alertText = some o) (hk : ∀ o, (sink o).lookupKey = none)
    (h0 : timeParse (b0.KeyAsString.toList.take 8) = some dayOne)
    (h1 : timeParse (b1.KeyAsString.toList.take 8) = some dayTwo) :
    ∀ out ∈ (connectionRun test pct sink cfg w org ⟨key, count, b0 :: b1 :: rest⟩).alerts,
      ∃ orgName scData scType scName,
        org.Name = some orgName ∧ w.getServiceConnection key = some scData ∧
        scData.Type_ = some scType ∧ scData.Name = some scName ∧
        out = specAlertLine (specVerb (b1.TotalUsage.val - b0.TotalUsage.val))
          (fmtFloat 1 (pct b0.TotalUsage b1.TotalUsage)) orgName (w.title scType) scName
          dayOne.Format dayTwo.Format
          (cpSprintf2 b0.TotalUsage.val) (cpSprintf2 b1.TotalUsage.val) := by
  intro out hout
  obtain ⟨_, _, _, c0, c1, rest', scData, hd, hl, ha⟩ :=
    (connectionRun_trace test pct sink cfg w org ⟨key, count, b0 :: b1 :: rest⟩ hs hk).2.1 out hout
  have hd' : b0 :: b1 :: rest = c0 :: c1 :: rest' := hd
  injection hd' with e0 hd'
  injection hd' with e1 _
  subst e0 e1
  obtain ⟨d0, d1, orgName, scType, scName, p0, p1, ho, ht, hn, hout⟩ :=
    alertOutput_ok w org scData b0 b1 _ _ out ha
  have q0 := (parseDay_ok _ _ p0).2
  have q1 := (parseDay_ok _ _ p1).2
  rw [h0] at q0
  rw [h1] at q1
  subst q0 q1
  rw [verb_eq_specVerb] at hout
  exact ⟨orgName, scData, scType, scName, ho, hl, ht, hn, hout⟩

/-- C8 (amended): in both programs, for every alert emitted for a connection
whose computed magnitude `|diff / denominator| * 100` is a finite `float64`
`m` and whose two `key_as_string` begin with the eight digits `YYYYMMDD` of a
valid date, the message is exactly `Daily usage <verb> by <m with one
decimal>% for '<org name>' in <type in title case> (<connection name>) between
<day-one as YYYY-MM-DD> and <day-two as YYYY-MM-DD>, from $<value[0] with 2
decimals, grouped> to $<value[1] with 2 decimals, grouped>`, the dates being
those of daily buckets 0 and 1; org `Acme`, type `aws`, name `Acme AWS`,
values 100.00 and 120.00 and threshold 0.05 give the line `Daily usage
increased by 20.0% for 'Acme' in Aws (Acme AWS) between 2024-01-14 and
2024-01-15, from $100.00 to $120.00`, and values 80.00 and 103.00, whose
magnitude is the `float64` 28.749999999999996, print `28.7%`. -/
theorem alert_line_shape (cfg : Config) (w : World) (org : Organization)
    (key : String) (count : Int) (b0 b1 : DailyBucket) (rest : List DailyBucket)
    (dayOne dayTwo : Date)
    (h0 : timeParse (b0.KeyAsString.toList.take 8) = some dayOne)
    (h1 : timeParse (b1.KeyAsString.toList.take 8) = some dayTwo) :
    (∀ m : ℚ, F64.scale (F64.abs (F64.div (F64.sub b1.TotalUsage.val b0.TotalUsage.val)
        b0.TotalUsage.val)) 100 = F64.fin m →
      ∀ out ∈ (Delta.processConnection cfg w org ⟨key, count, b0 :: b1 :: rest⟩).alerts,
        ∃ orgName scData scType scName,
          org.Name = some orgName ∧ w.getServiceConnection key = some scData ∧
          scData.Type_ = some scType ∧ scData.Name = some scName ∧
          out = specAlertLine (specVerb (b1.TotalUsage.val - b0.TotalUsage.val))
            (fmtFixed 1 m)
            orgName (w.title scType) scName dayOne.Format dayTwo.Format
            (cpSprintf2 b0.TotalUsage.val) (cpSprintf2 b1.TotalUsage.val)) ∧
    (∀ m : ℚ, F64.scale (F64.abs (F64.div (F64.sub b1.TotalUsage.val b0.TotalUsage.val)
        (specDirectionalDenominator b0.TotalUsage.val b1.TotalUsage.val))) 100 = F64.fin m →
      ∀ out ∈ (Trends.processConnection cfg w org ⟨key, count, b0 :: b1 :: rest⟩).alerts,
        ∃ orgName scData scType scName,
          org.Name = some orgName ∧ w.getServiceConnection key = some scData ∧
          scData.Type_ = some scType ∧ scData.Name = some scName ∧
          out = specAlertLine (specVerb (b1.TotalUsage.val - b0.TotalUsage.val))
            (fmtFixed 1 m)
            orgName (w.title scType) scName dayOne.Format dayTwo.Format
            (cpSprintf2 b0.TotalUsage.val) (cpSprintf2 b1.TotalUsage.val)) ∧
    Delta.main (plainConfig threshold005)
      (worldOf (some acmeAws) (resultOf [conn1Days d100 d120])) =
      ⟨[Event.getOrganizations, Event.search "org-1", Event.getServiceConnection "conn-1",
        Event.logPrintln "Daily usage increased by 20.0% for 'Acme' in Aws (Acme AWS) between 2024-01-14 and 2024-01-15, from $100.00 to $120.00"],
        Status.done⟩ ∧
    Trends.main (plainConfig threshold005)
      (worldOf (some acmeAws) (resultOf [conn1Days d100 d120])) =
      ⟨[Event.getOrganizations, Event.search "org-1", Event.getServiceConnection "conn-1",
        Event.logPrintln "Daily usage increased by 20.0% for 'Acme' in Aws (Acme AWS) between 2024-01-14 and 2024-01-15, from $100.00 to $120.00"],
        Status.done⟩ ∧
    Delta.delta d80 d103 = F64.fin (8092405580431359 / 281474976710656) ∧
    Delta.main (plainConfig threshold005)
      (worldOf (some acmeAws) (resultOf [conn1Days d80 d103])) =
      ⟨[Event.getOrganizations, Event.search "org-1", Event.getServiceConnection "conn-1",
        Event.logPrintln "Daily usage increased by 28.7% for 'Acme' in Aws (Acme AWS) between 2024-01-14 and 2024-01-15, from $80.00 to $103.00"],
        Status.done⟩ := by
  refine ⟨?_, ?_, by decide!, by decide!, by decide!, by decide!⟩
  · intro m hm out hout
    rw [delta_processConnection_eq] at hout
    have h := connectionRun_line Delta.passes Delta.delta Event.logPrintln cfg w org key count
      b0 b1 rest dayOne dayTwo logPrintln_alertText (fun _ => rfl) h0 h1 out hout
    have hd : Delta.delta b0.TotalUsage b1.TotalUsage = F64.fin m := hm
    rw [hd] at h
    exact h
  · intro m hm out hout
    rw [trends_processConnection_eq] at hout
    have h := connectionRun_line Trends.passes Trends.delta (Trends.deliver cfg) cfg w org key
      count b0 b1 rest dayOne dayTwo (deliver_alertText cfg) (deliver_lookupKey cfg) h0 h1 out hout
    have hd : Trends.delta b0.TotalUsage b1.TotalUsage = F64.fin m := by
      rw [trends_delta_eq]
      exact hm
    rw [hd] at h
    exact h

theorem alert_line_shape_witness :
    timeParse ("20240114T000000.000Z".toList.take 8) = some ⟨2024, 1, 14⟩ ∧
    timeParse ("20240115T000000.000Z".toList.take 8) = some ⟨2024, 1, 15⟩ ∧
    F64.scale (F64.abs (F64.div (F64.sub d120.val d100.val) d100.val)) 100 = F64.fin 20 ∧
    (Delta.processConnection (plainConfig threshold005)
      (worldOf (some acmeAws) (resultOf [])) acme (conn1Days d100 d120)).alerts =
      ["Daily usage increased by 20.0% for 'Acme' in Aws (Acme AWS) between 2024-01-14 and 2024-01-15, from $100.00 to $120.00"] ∧
    ∃ orgName scData scType scName,
      acme.Name = some orgName ∧
      (worldOf (some acmeAws) (resultOf [])).getServiceConnection "conn-1" = some scData ∧
      scData.Type_ = some scType ∧ scData.Name = some scName ∧
      "Daily usage increased by 20.0% for 'Acme' in Aws (Acme AWS) between 2024-01-14 and 2024-01-15, from $100.00 to $120.00" =
        specAlertLine (specVerb (d120.val - d100.val)) (fmtFixed 1 20)
          orgName ((worldOf (some acmeAws) (resultOf [])).title scType) scName
          (Date.mk 2024 1 14).Format (Date.mk 2024 1 15).Format
          (cpSprintf2 d100.val) (cpSprintf2 d120.val) :=
  ⟨by decide, by decide, by decide!, by decide!,
    (alert_line_shape (plainConfig threshold005) (worldOf (some acmeAws) (resultOf []))
      acme "conn-1" 2 (dailyBucket "20240114T000000.000Z" d100)
      (dailyBucket "20240115T000000.000Z" d120) [] ⟨2024, 1, 14⟩ ⟨2024, 1, 15⟩
      (by decide) (by decide)).1 20 (by decide!) _ (by decide!)⟩

/-- Counterexample to C8 as stated, in cloudmc_usage_delta.  With day-one value
0 the alert prints `+Inf%`, which is no magnitude with one decimal; with
`key_as_string` in the ISO form `2024-01-14T00:00:00.000Z` the parse of the
first eight bytes fails and both dates print as `0001-01-01`, not as the dates
of the buckets. -/
theorem alert_line_inf_and_zero_date :
    Delta.processConnection (plainConfig threshold005)
      (worldOf (some acmeAws) (resultOf [])) acme (conn1Days d0 d5) =
      ⟨[Event.getServiceConnection "conn-1", Event.logPrintln "Daily usage increased by +Inf% for 'Acme' in Aws (Acme AWS) between 2024-01-14 and 2024-01-15, from $0.00 to $5.00"], Status.done⟩ ∧
    Delta.processConnection (plainConfig threshold005)
      (worldOf (some acmeAws) (resultOf [])) acme
      (conn1 [dailyBucket "2024-01-14T00:00:00.000Z" d100,
        dailyBucket "2024-01-15T00:00:00.000Z" d120]) =
      ⟨[Event.getServiceConnection "conn-1", Event.logPrintln "Daily usage increased by 20.0% for 'Acme' in Aws (Acme AWS) between 0001-01-01 and 0001-01-01, from $100.00 to $120.00"], Status.done⟩ :=
  ⟨by decide!, by decide!⟩

/-! ### The two policies side by side -/

theorem le_fin_fin (a b : ℚ) : F64.le (F64.fin a) (F64.fin b) = true ↔ a ≤ b := by
  simp [F64.le]

/-- Rounding never gives a NaN. -/
theorem round_ne_nan (x : ℚ) :
    F64.le F64.negInf (F64.round x) = true ∧ F64.le (F64.round x) F64.posInf = true := by
  rcases le_or_lt 0 x with h | h
  · rcases F64.round_nonneg_cases x h with h1 | ⟨r, h1, _⟩ <;> rw [h1] <;> exact ⟨rfl, rfl⟩
  · rcases F64.round_nonpos_cases x (le_of_lt h) with h1 | ⟨r, h1, _⟩ <;> rw [h1] <;>
      exact ⟨rfl, rfl⟩

/-- A value between two binary64 numbers rounds to a value between them. -/
theorem round_between (x lo hi : ℚ) (hlo : F64.round lo = F64.fin lo)
    (hhi : F64.round hi = F64.fin hi) (h1 : lo ≤ x) (h2 : x ≤ hi) :
    ∃ r : ℚ, F64.round x = F64.fin r ∧ lo ≤ r ∧ r ≤ hi := by
  have m1 := F64.round_mono lo x h1
  have m2 := F64.round_mono x hi h2
  rw [hlo] at m1
  rw [hhi] at m2
  cases hx : F64.round x with
  | fin r =>
    rw [hx] at m1 m2
    exact ⟨r, rfl, (le_fin_fin _ _).mp m1, (le_fin_fin _ _).mp m2⟩
  | posInf => rw [hx] at m2; cases m2
  | negInf => rw [hx] at m1; cases m1
  | nan => rw [hx] at m1; cases m1

theorem abs_anti (x y : F64) (h : F64.le x y = true) (hy : F64.le y (F64.fin 0) = true) :
    F64.le (F64.abs y) (F64.abs x) = true := by
  cases x <;> cases y <;> simp_all [F64.le, F64.abs]
  rename_i s r
  rw [abs_of_nonpos hy, abs_of_nonpos (le_trans h hy)]
  linarith

theorem scale_mono (x y : F64) (c : ℚ) (hc : 0 < c) (h : F64.le x y = true) :
    F64.le (F64.scale x c) (F64.scale y c) = true := by
  have hc0 : c ≠ 0 := ne_of_gt hc
  cases x <;> cases y <;> simp_all [F64.le, F64.scale]
  · rename_i a b
    have := F64.round_mono (a * c) (b * c) (by nlinarith)
    simpa [F64.le] using this
  · exact (round_ne_nan _).2
  · exact (round_ne_nan _).1

/-- The computed difference of two positive values, the second below the
first, is finite and lies between minus the first and zero. -/
theorem sub_of_pos_lt (a b : Float64) (hb : 0 < b.val) (h : b.val < a.val) :
    ∃ d : ℚ, F64.sub b.val a.val = F64.fin d ∧ -a.val ≤ d ∧ d ≤ 0 := by
  have hneg : F64.round (-a.val) = F64.fin (-a.val) := by
    rw [F64.round_neg, a.finite]
    rfl
  exact round_between (b.val - a.val) (-a.val) 0 hneg F64.round_zero (by linarith) (by linarith)

theorem round_neg_one : F64.round (-1) = F64.fin (-1) := by decide!

theorem round_hundred : F64.round 100 = F64.fin 100 := by decide!

/-- For positive values with the second below the first: the ratio on the
first value is finite and at most 1 in size, and at most the ratio on the
second value. -/
theorem ratio_fixed_le_directional (a b : Float64) (hb : 0 < b.val) (h : b.val < a.val) :
    (∃ r : ℚ, F64.abs (F64.div (F64.sub b.val a.val) a.val) = F64.fin r ∧ 0 ≤ r ∧ r ≤ 1) ∧
    F64.le (F64.abs (F64.div (F64.sub b.val a.val) a.val))
      (F64.abs (F64.div (F64.sub b.val a.val) b.val)) = true := by
  obtain ⟨d, hd, hd1, hd2⟩ := sub_of_pos_lt a b hb h
  have ha : 0 < a.val := lt_trans hb h
  rw [hd]
  have hda : F64.div (F64.fin d) a.val = F64.round (d / a.val) := by
    simp [F64.div, ne_of_gt ha]
  have hdb : F64.div (F64.fin d) b.val = F64.round (d / b.val) := by
    simp [F64.div, ne_of_gt hb]
  have hq1 : -1 ≤ d / a.val := by
    rw [le_div_iff₀ ha]
    linarith
  have hq2 : d / a.val ≤ 0 := div_nonpos_of_nonpos_of_nonneg hd2 (le_of_lt ha)
  obtain ⟨r, hr, hr1, hr2⟩ := round_between (d / a.val) (-1) 0 round_neg_one F64.round_zero
    hq1 hq2
  have hle : d / b.val ≤ d / a.val := by
    rw [div_le_div_iff₀ hb ha]
    nlinarith
  constructor
  · refine ⟨-r, ?_, by linarith, by linarith⟩
    rw [hda, hr]
    simp [F64.abs, abs_of_nonpos hr2]
  · rw [hda, hdb]
    apply abs_anti
    · exact F64.round_mono _ _ hle
    · rw [hr]
      exact (le_fin_fin _ _).mpr hr2

/-- C10 (amended): for `float64` values `v0`, `v1` and a threshold `t`, with
`v1` above zero (so in particular for two values above zero).  When `v1 >= v0` the two programs compute the same denominator, the same
magnitude and the same gate decision.  When `v1 < v0` the directional
magnitude is at least the fixed one and the fixed one is at most 100 (both
comparisons hold with equality for some pairs), whereas directional magnitudes
exceed every bound.  Every pair that passes the fixed-baseline gate passes the
directional one at the same threshold, and the directional denominator is
`min v0 v1`. -/
theorem fixed_vs_directional (v0 v1 : Float64) (t : F64) (h1 : 0 < v1.val) :
    (v0.val ≤ v1.val →
      Trends.denominator v0 v1 = v0 ∧ Trends.delta v0 v1 = Delta.delta v0 v1 ∧
      Trends.passes v0 v1 t = Delta.passes v0 v1 t) ∧
    (v1.val < v0.val →
      Trends.denominator v0 v1 = v1 ∧
      F64.ge (Trends.delta v0 v1) (Delta.delta v0 v1) = true ∧
      F64.ge (F64.fin 100) (Delta.delta v0 v1) = true) ∧
    (∀ bound : ℚ, ∃ u0 u1 : Float64, 0 < u0.val ∧ 0 < u1.val ∧ u1.val < u0.val ∧
      F64.gt (Trends.delta u0 u1) (F64.fin bound) = true) ∧
    (Delta.passes v0 v1 t = true → Trends.passes v0 v1 t = true) ∧
    (Trends.denominator v0 v1).val = min v0.val v1.val := by
  have hden_le : v0.val ≤ v1.val → Trends.denominator v0 v1 = v0 := by
    intro h
    rw [trends_denominator_eq]
    exact if_pos (by linarith)
  have hden_lt : v1.val < v0.val → Trends.denominator v0 v1 = v1 := by
    intro h
    rw [trends_denominator_eq]
    exact if_neg (by linarith)
  refine ⟨?_, ?_, ?_, ?_, ?_⟩
  · intro h
    refine ⟨hden_le h, ?_, ?_⟩
    · unfold Trends.delta Delta.delta
      simp only [hden_le h]
    · unfold Trends.passes Delta.passes
      simp only [hden_le h]
  · intro h
    obtain ⟨⟨r, hr, hr0, hr1⟩, hle⟩ := ratio_fixed_le_directional v0 v1 h1 h
    refine ⟨hden_lt h, ?_, ?_⟩
    · unfold Trends.delta Delta.delta
      simp only [hden_lt h]
      exact scale_mono _ _ 100 (by norm_num) hle
    · have hd : Delta.delta v0 v1 = F64.round (r * 100) := by
        unfold Delta.delta
        simp only [hr]
        rfl
      rw [hd]
      have := F64.round_mono (r * 100) 100 (by linarith)
      rw [round_hundred] at this
      exact this
  · intro bound
    exact ⟨dHuge, dTiny, by decide!, by decide!, by decide!, by
      have h : Trends.delta dHuge dTiny = F64.posInf := by decide!
      rw [h]
      rfl⟩
  · intro hp
    by_cases h : v0.val ≤ v1.val
    · unfold Trends.passes
      simp only [hden_le h]
      exact hp
    · have hlt : v1.val < v0.val := not_le.mp h
      obtain ⟨_, hle⟩ := ratio_fixed_le_directional v0 v1 h1 hlt
      unfold Trends.passes
      simp only [hden_lt hlt]
      exact gt_of_le_of_gt _ _ t hle hp
  · by_cases h : v0.val ≤ v1.val
    · rw [hden_le h, min_eq_left h]
    · rw [hden_lt (not_le.mp h), min_eq_right (le_of_lt (not_le.mp h))]

theorem fixed_vs_directional_witness :
    (0 : ℚ) < d200.val ∧ (0 : ℚ) < d50.val ∧ d50.val < d200.val ∧
    Trends.denominator d200 d50 = d50 ∧
    F64.ge (Trends.delta d200 d50) (Delta.delta d200 d50) = true ∧
    F64.ge (F64.fin 100) (Delta.delta d200 d50) = true ∧
    Trends.delta d200 d50 = F64.fin 300 ∧ Delta.delta d200 d50 = F64.fin 75 ∧
    (Trends.denominator d200 d50).val = min d200.val d50.val :=
  ⟨by decide!, by decide!, by decide!,
    ((fixed_vs_directional d200 d50 threshold005 (by decide!)).2.1
      (by decide!)).1,
    ((fixed_vs_directional d200 d50 threshold005 (by decide!)).2.1
      (by decide!)).2.1,
    ((fixed_vs_directional d200 d50 threshold005 (by decide!)).2.1
      (by decide!)).2.2,
    by decide!, by decide!,
    (fixed_vs_directional d200 d50 threshold005 (by decide!)).2.2.2.2⟩

/-- Counterexample to C10 as stated: in `float64` the two strict comparisons of
case (ii) fail.  For `v0 = 10000` and `v1 = 1e-13`, both above zero with
`v1 < v0`, the difference rounds to `-10000` and the fixed magnitude is exactly
100, not below 100.  For the adjacent values `v0 = 847.5863032002954` and
`v1 = 847.5863032002953` the fixed and the directional magnitude are the same
`float64`, so the directional one is not greater. -/
theorem fixed_vs_directional_not_strict :
    0 < d1em13.val ∧ d1em13.val < d10000.val ∧
    Delta.delta d10000 d1em13 = F64.fin 100 ∧
    F64.lt (Delta.delta d10000 d1em13) (F64.fin 100) = false ∧
    0 < d847lo.val ∧ d847lo.val < d847hi.val ∧
    Trends.delta d847hi d847lo = Delta.delta d847hi d847lo ∧
    F64.gt (Trends.delta d847hi d847lo) (Delta.delta d847hi d847lo) = false := by
  refine ⟨by decide!, by decide!, by decide!, by decide!, by decide!, by decide!, by decide!,
    by decide!⟩

end CloudMC
